import Mathlib

/-!
Verification development for a tree-walking Lox interpreter written in Rust
(jlox-rs).  The Rust sources are embedded shallowly:

* mutable interpreter state (`&mut self`, `Rc<RefCell<Environment>>`,
  shared instance fields) becomes explicit state passing over a `Store`
  of numbered environment frames and instances;
* `Result<T, LoxError>` becomes an `Outcome` value; a Rust `panic!`,
  a failed `assert!` or `unwrap()` becomes the `Outcome.panic` constructor;
  `Outcome.timeout` is an artifact of the fuel parameter that totalizes
  the interpreter loops and marks no program behaviour;
* `f64` is modelled by `LoxNum`: a NaN marker or an exact rational.
  No claim below depends on rounding, infinities or signed zeros, which
  this model does not distinguish;
* `HashMap` becomes an association list with insert-or-replace;
* `Uuid` node identities (expr.rs) become a parse-time counter, one of the
  identity choices the specification explicitly allows;
* diagnostics printed to stderr (`eprintln!`) are collected in lists.

`TokenType` (src/token_type.rs is not among the provided files; its
variants are fixed by every use site in scanner.rs and parser.rs), the
`Class` statement variant and the `ResolveError` error variant (referenced
by resolver.rs and interpreter.rs but absent from the provided stmt.rs and
error.rs) are modelled from the specification where noted.
-/

/-- Model of the host `f64`: a NaN marker, or an exact rational for the
finite values used by the claims.  Infinities and signed zeros are not
distinguished. -/
inductive LoxNum where
  | nan : LoxNum
  | fin : Rat → LoxNum
deriving DecidableEq, Repr

namespace LoxNum

/-- `f64::is_nan`. -/
def isNan : LoxNum → Bool
  | .nan => true
  | .fin _ => false

/-- IEEE `==` on `f64` (`a.eq(b)` in object.rs): NaN equals nothing. -/
def ieeeEq : LoxNum → LoxNum → Bool
  | .fin a, .fin b => a = b
  | _, _ => false

/-- Exact rational addition, written out over `mkRat` (the `Rat`
arithmetic of the ambient library is `@[irreducible]`; these direct
definitions make every concrete run kernel-computable). -/
def ratAdd (a b : Rat) : Rat :=
  mkRat (a.num * b.den + b.num * a.den) (a.den * b.den)

def ratSub (a b : Rat) : Rat :=
  mkRat (a.num * b.den - b.num * a.den) (a.den * b.den)

def ratMul (a b : Rat) : Rat :=
  mkRat (a.num * b.num) (a.den * b.den)

/-- `a / b` for `b ≠ 0`. -/
def ratDiv (a b : Rat) : Rat :=
  mkRat (a.num * b.den * b.num.sign) (a.den * b.num.natAbs)

/-- `f64` addition (NaN propagates). -/
def add : LoxNum → LoxNum → LoxNum
  | .fin a, .fin b => .fin (ratAdd a b)
  | _, _ => .nan

/-- `f64` subtraction (NaN propagates). -/
def sub : LoxNum → LoxNum → LoxNum
  | .fin a, .fin b => .fin (ratSub a b)
  | _, _ => .nan

/-- `f64` multiplication (NaN propagates). -/
def mul : LoxNum → LoxNum → LoxNum
  | .fin a, .fin b => .fin (ratMul a b)
  | _, _ => .nan

/-- `f64` division; division by zero is collapsed to NaN in this model
(no claim depends on infinities). -/
def div : LoxNum → LoxNum → LoxNum
  | .fin a, .fin b => if b.num = 0 then .nan else .fin (ratDiv a b)
  | _, _ => .nan

/-- `f64` negation. -/
def neg : LoxNum → LoxNum
  | .nan => .nan
  | .fin a => .fin (mkRat (-a.num) a.den)

/-- `a < b` via `partial_cmp`: any comparison with NaN is false. -/
def ltb : LoxNum → LoxNum → Bool
  | .fin a, .fin b => Rat.blt a b
  | _, _ => false

/-- `a <= b` via `partial_cmp`: any comparison with NaN is false. -/
def leb : LoxNum → LoxNum → Bool
  | .fin a, .fin b => ¬ Rat.blt b a
  | _, _ => false

/-- Rendering for `Display` (`"{}"` on `f64`).  Integral values print
without a fractional part; the claims do not depend on the rendering of
non-integral doubles, which this model prints as a fraction. -/
def render : LoxNum → String
  | .nan => "NaN"
  | .fin q => if q.den = 1 then toString q.num else toString q.num ++ "/" ++ toString q.den

end LoxNum

/-- The literal payload a token or a `Literal` expression can carry: the
scanner only ever stores `Object::Null`, `Object::Num` or `Object::Str`
there, and the parser adds `Object::Bool` for `true`/`false`.  (Splitting
this subset off the runtime `Obj` type breaks the `Object` / `Token` type
recursion of the Rust sources, which is realised there through reference
counting.) -/
inductive Lit where
  | null : Lit
  | bool : Bool → Lit
  | num : LoxNum → Lit
  | str : String → Lit
deriving DecidableEq, Repr

/-- Modelled from the spec: the closed token-kind set of src/token_type.rs
(the file is not among the provided sources; every variant is forced by its
uses in scanner.rs and parser.rs).  Reserved Lean words carry a `Kw`
suffix. -/
inductive TokenType where
  | leftParen | rightParen | leftBrace | rightBrace
  | comma | dot | minus | plus | semicolon | slash | star
  | bang | bangEqual | equal | equalEqual
  | greater | greaterEqual | less | lessEqual
  | identifier | stringTok | number
  | andKw | classKw | elseKw | falseKw | funKw | forKw | ifKw | nilKw
  | orKw | printKw | returnKw | superKw | thisKw | trueKw | varKw | whileKw
  | eof
deriving DecidableEq, Repr

/-- src/token.rs: `Token { typ, lexeme, literal, line }`. -/
structure Token where
  typ : TokenType
  lexeme : String
  literal : Lit
  line : Nat
deriving DecidableEq, Repr

/-- src/expr.rs: the expression AST.  The `Uuid` field `id` becomes a
parse-time counter (unique within a parse, which is all `impl PartialEq
for Expr` and the side-table need).  `Expr::Variable` is `var_` because
`variable` is reserved in Lean. -/
inductive Expr where
  | literal (id : Nat) (value : Lit)
  | unary (id : Nat) (operator : Token) (right : Expr)
  | binary (id : Nat) (left : Expr) (operator : Token) (right : Expr)
  | grouping (id : Nat) (expression : Expr)
  | var_ (id : Nat) (name : Token)
  | assign (id : Nat) (name : Token) (value : Expr)
  | logical (id : Nat) (left : Expr) (operator : Token) (right : Expr)
  | call (id : Nat) (callee : Expr) (paren : Token) (arguments : List Expr)
  | get (id : Nat) (object : Expr) (name : Token)
  | set (id : Nat) (object : Expr) (name : Token) (value : Expr)
  | this (id : Nat) (keyword : Token)
  | superE (id : Nat) (keyword : Token) (method : Token)
/-- The node identity (expr.rs keys its `PartialEq`, `Eq` and `Hash` on the
`id` field alone, per variant). -/
def Expr.exprId : Expr → Nat
  | .literal i _ | .unary i _ _ | .binary i _ _ _ | .grouping i _
  | .var_ i _ | .assign i _ _ | .logical i _ _ _ | .call i _ _ _
  | .get i _ _ | .set i _ _ _ | .this i _ | .superE i _ _ => i

/-- src/stmt.rs: the statement AST.  The provided stmt.rs has no `Class`
variant although resolver.rs and interpreter.rs both visit one; the
`classDecl` constructor is modelled from the spec
(`Class(name, superclass?, methods)`) and from those visitors' field uses.
`ifS`/`whileS`/`varS`/`returnS` avoid reserved Lean words. -/
inductive Stmt where
  | expression (expression : Expr)
  | print (expression : Expr)
  | varS (name : Token) (initializer : Option Expr)
  | block (statements : List Stmt)
  | ifS (condition : Expr) (thenBranch : Stmt) (elseBranch : Option Stmt)
  | whileS (condition : Expr) (body : Stmt)
  | function (name : Token) (params : List Token) (body : List Stmt)
  | returnS (keyword : Token) (value : Option Expr)
  | classDecl (name : Token) (superclass : Option Expr) (methods : List Stmt)
/-- src/stmt.rs `StmtFunction`, as carried by a `LoxFunction` value. -/
structure FunDecl where
  name : Token
  params : List Token
  body : List Stmt
/-- src/lox_callable.rs `LoxFunction`: declaration, captured environment
(a frame number in the store) and the initializer flag. -/
structure LoxFunction where
  declaration : FunDecl
  closure : Nat
  isInitializer : Bool
/-- src/lox_callable.rs `LoxClass`: name, optional superclass, method
table.  The `Rc<LoxClass>` superclass reference is inlined (classes are
immutable after construction, so sharing is unobservable). -/
inductive LoxClass where
  | mk (name : String) (superclass : Option LoxClass)
      (methods : List (String × LoxFunction))
def LoxClass.name : LoxClass → String
  | .mk n _ _ => n

def LoxClass.superclass : LoxClass → Option LoxClass
  | .mk _ s _ => s

def LoxClass.methods : LoxClass → List (String × LoxFunction)
  | .mk _ _ m => m

/-- src/lox_callable.rs `NativeFunction`.  The only native bound by
`Interpreter::new` is `clock`; its host side effect (reading the system
time) is outside the model. -/
structure NativeFunction where
  arity : Nat
/-- src/lox_callable.rs `CallableKind`. -/
inductive CallableKind where
  | function (f : LoxFunction)
  | native (n : NativeFunction)
  | classK (c : LoxClass)
/-- src/object.rs `Object`.  `Instance` holds a reference into the store
(`LoxInstance.fields` is `Rc<RefCell<_>>`-shared in Rust).  `inst` avoids
the reserved word `instance`, `null` is `Object::Null`. -/
inductive Obj where
  | bool (b : Bool)
  | num (n : LoxNum)
  | str (s : String)
  | null
  | callable (c : CallableKind)
  | inst (r : Nat)
/-- src/error.rs `LoxError`.  `resolveError` is referenced by resolver.rs
(`LoxError::ResolveError`) but absent from the provided error.rs; it is
modelled from that use and the spec's static-error aggregate.  `ret` is
`LoxError::Return`. -/
inductive LoxError where
  | scanError
  | parseError
  | resolveError
  | runtimeError (token : Token) (message : String)
  | ret (value : Obj)
/-- The result of running a piece of embedded Rust: a value, an `Err`
that the Rust code returns, a panic (`panic!`, failed `assert!`,
`unwrap()` on `None`), or fuel exhaustion of the embedding (never an
actual program behaviour). -/
inductive Outcome (α : Type) where
  | ok (val : α)
  | err (e : LoxError)
  | panic (msg : String)
  | timeout
namespace Outcome

def isOk {α} : Outcome α → Bool
  | .ok _ => true
  | _ => false

def isErr {α} : Outcome α → Bool
  | .err _ => true
  | _ => false

end Outcome

/-- `HashMap::get` on the association-list model. -/
def alistGet {α : Type} (l : List (String × α)) (k : String) : Option α :=
  match l with
  | [] => none
  | (k', v) :: rest => if k' = k then some v else alistGet rest k

/-- `HashMap::contains_key`. -/
def alistHas {α : Type} (l : List (String × α)) (k : String) : Bool :=
  (alistGet l k).isSome

/-- `HashMap::insert`: replace the binding if the key is present, else
add it. -/
def alistPut {α : Type} (l : List (String × α)) (k : String) (v : α) :
    List (String × α) :=
  match l with
  | [] => [(k, v)]
  | (k', v') :: rest =>
      if k' = k then (k, v) :: rest else (k', v') :: alistPut rest k v

/-- Side table `HashMap<Expr, usize>` keyed by node identity (ids are
unique within a parse, so the id stands for the `Expr` key). -/
def localsGet (l : List (Nat × Nat)) (k : Nat) : Option Nat :=
  match l with
  | [] => none
  | (k', v) :: rest => if k' = k then some v else localsGet rest k

/-- `HashMap::insert` for the side table. -/
def localsPut (l : List (Nat × Nat)) (k : Nat) (v : Nat) : List (Nat × Nat) :=
  match l with
  | [] => [(k, v)]
  | (k', v') :: rest =>
      if k' = k then (k, v) :: rest else (k', v') :: localsPut rest k v

section ObjectOps

/-- object.rs `Object::is_num`. -/
def Obj.isNum : Obj → Bool
  | .num _ => true
  | _ => false

/-- object.rs `Object::is_str`. -/
def Obj.isStr : Obj → Bool
  | .str _ => true
  | _ => false

/-- object.rs `Object::is_null`. -/
def Obj.isNull : Obj → Bool
  | .null => true
  | _ => false

/-- object.rs `Object::is_truthy`: `Null` is false, `Bool` is itself,
everything else is true. -/
def Obj.isTruthy : Obj → Bool
  | .null => false
  | .bool b => b
  | _ => true

/-- object.rs `impl PartialEq for Object`: NaN numbers are equal to each
other, then per-variant value equality for `Num`, `Bool`, `Str`, `Null`;
every other pair — including two `Callable`s or two `Instance`s — falls
to the `_ => false` arm. -/
def Obj.beq : Obj → Obj → Bool
  | .num a, .num b => if a.isNan && b.isNan then true else a.ieeeEq b
  | .bool a, .bool b => a = b
  | .str a, .str b => a = b
  | .null, .null => true
  | _, _ => false

/-- object.rs `impl Neg`: panics unless the operand is a number. -/
def Obj.negO : Obj → Outcome Obj
  | .num n => .ok (.num n.neg)
  | _ => .panic "Failed to negate Object."

/-- object.rs `impl Not`: boolean negation of truthiness (total). -/
def Obj.notO (o : Obj) : Obj :=
  if o.isTruthy then .bool false else .bool true

/-- object.rs `impl Add`: numbers add, strings concatenate, anything else
panics. -/
def Obj.addO : Obj → Obj → Outcome Obj
  | .num a, .num b => .ok (.num (a.add b))
  | .str a, .str b => .ok (.str (a ++ b))
  | _, _ => .panic "Failed to add Objects."

/-- object.rs `impl Sub`: panics unless both operands are numbers. -/
def Obj.subO : Obj → Obj → Outcome Obj
  | .num a, .num b => .ok (.num (a.sub b))
  | _, _ => .panic "Failed to subtract Objects."

/-- object.rs `impl Mul`: panics unless both operands are numbers. -/
def Obj.mulO : Obj → Obj → Outcome Obj
  | .num a, .num b => .ok (.num (a.mul b))
  | _, _ => .panic "Failed to multiple Objects."

/-- object.rs `impl Div`: panics unless both operands are numbers. -/
def Obj.divO : Obj → Obj → Outcome Obj
  | .num a, .num b => .ok (.num (a.div b))
  | _, _ => .panic "Failed to divide Objects."

/-- object.rs `impl PartialOrd` through Rust's `<` operator: `Some(Less)`
compares true, `None` (impossible here: `partial_cmp` panics first on
non-numbers) false. -/
def Obj.ltO : Obj → Obj → Outcome Bool
  | .num a, .num b => .ok (a.ltb b)
  | _, _ => .panic "Failed to compare Objects."

/-- Rust's `<=` on the `PartialOrd` of object.rs. -/
def Obj.leO : Obj → Obj → Outcome Bool
  | .num a, .num b => .ok (a.leb b)
  | _, _ => .panic "Failed to compare Objects."

/-- Rust's `>` on the `PartialOrd` of object.rs. -/
def Obj.gtO : Obj → Obj → Outcome Bool
  | .num a, .num b => .ok (b.ltb a)
  | _, _ => .panic "Failed to compare Objects."

/-- Rust's `>=` on the `PartialOrd` of object.rs. -/
def Obj.geO : Obj → Obj → Outcome Bool
  | .num a, .num b => .ok (b.leb a)
  | _, _ => .panic "Failed to compare Objects."

end ObjectOps

section Environments

/-- src/environment.rs `Environment`: the enclosing pointer becomes the
number of the enclosing frame in the store. -/
structure EnvFrame where
  enclosing : Option Nat
  values : List (String × Obj)
/-- src/lox_callable.rs `LoxInstance`: class plus shared mutable fields. -/
structure InstData where
  klass : LoxClass
  fields : List (String × Obj)
/-- The heap the `Rc<RefCell<…>>` graph lives in: environment frames and
instances, addressed by index. -/
structure Store where
  envs : List EnvFrame
  insts : List InstData
/-- Replace frame `r` (allocation only appends, so indices are stable). -/
def Store.setEnv (s : Store) (r : Nat) (f : EnvFrame) : Store :=
  { s with envs := s.envs.set r f }

/-- Allocate a frame, returning its number. -/
def Store.allocEnv (s : Store) (f : EnvFrame) : Store × Nat :=
  ({ s with envs := s.envs ++ [f] }, s.envs.length)

/-- Allocate an instance, returning its number. -/
def Store.allocInst (s : Store) (d : InstData) : Store × Nat :=
  ({ s with insts := s.insts ++ [d] }, s.insts.length)

/-- environment.rs `Environment::define`: add or overwrite in frame `r`. -/
def envDefine (s : Store) (r : Nat) (name : String) (v : Obj) : Store :=
  match s.envs.get? r with
  | none => s   -- unreachable: every frame number comes from an allocation
  | some f => s.setEnv r { f with values := alistPut f.values name v }

/-- environment.rs `Environment::get`: this frame, else the enclosing
chain; `Undefined variable` error at the global end.  The fuel bounds the
chain walk (frames always enclose earlier-allocated frames, so the store
size suffices). -/
def envGetAux (s : Store) (fuel : Nat) (r : Nat) (name : Token) : Outcome Obj :=
  match fuel with
  | 0 => .timeout
  | fuel + 1 =>
    match s.envs.get? r with
    | none => .panic "dangling environment reference"
    | some f =>
      match alistGet f.values name.lexeme with
      | some v => .ok v
      | none =>
        match f.enclosing with
        | some enc => envGetAux s fuel enc name
        | none =>
            .err (.runtimeError name ("Undefined variable \x27" ++ name.lexeme ++ "\x27."))

def envGet (s : Store) (r : Nat) (name : Token) : Outcome Obj :=
  envGetAux s (s.envs.length + 1) r name

/-- environment.rs `Environment::assign`: mutate the binding in the first
frame of the chain that contains it. -/
def envAssignAux (s : Store) (fuel : Nat) (r : Nat) (name : Token) (v : Obj) :
    Outcome Store :=
  match fuel with
  | 0 => .timeout
  | fuel + 1 =>
    match s.envs.get? r with
    | none => .panic "dangling environment reference"
    | some f =>
      if alistHas f.values name.lexeme then
        .ok (s.setEnv r { f with values := alistPut f.values name.lexeme v })
      else
        match f.enclosing with
        | some enc => envAssignAux s fuel enc name v
        | none =>
            .err (.runtimeError name ("Undefined variable \x27" ++ name.lexeme ++ "\x27."))

def envAssign (s : Store) (r : Nat) (name : Token) (v : Obj) : Outcome Store :=
  envAssignAux s (s.envs.length + 1) r name v

/-- The `for _ in 1..distance` walk inside `Environment::ancestor`:
`steps` further `enclosing` hops from frame `e`. -/
def ancestorWalk (s : Store) (steps : Nat) (e : Nat) : Outcome Nat :=
  match steps with
  | 0 => .ok e
  | steps + 1 =>
    match s.envs.get? e with
    | none => .panic "dangling environment reference"
    | some f =>
      match f.enclosing with
      | none => .panic "called Option::unwrap() on a None value"
      | some e' => ancestorWalk s steps e'

/-- environment.rs `Environment::ancestor`: `assert!(distance > 0)`, then
one mandatory `enclosing.unwrap()` followed by `distance - 1` further
hops. -/
def envAncestor (s : Store) (r : Nat) (distance : Nat) : Outcome Nat :=
  if distance = 0 then .panic "assertion failed: distance > 0"
  else
    match s.envs.get? r with
    | none => .panic "dangling environment reference"
    | some f =>
      match f.enclosing with
      | none => .panic "called Option::unwrap() on a None value"
      | some e => ancestorWalk s (distance - 1) e

/-- environment.rs `Environment::get_at`: distance 0 reads this frame
directly (`unwrap` panics when the name is absent); otherwise read at
`ancestor(distance)`. -/
def envGetAt (s : Store) (r : Nat) (distance : Nat) (name : String) : Outcome Obj :=
  if distance = 0 then
    match s.envs.get? r with
    | none => .panic "dangling environment reference"
    | some f =>
      match alistGet f.values name with
      | some v => .ok v
      | none => .panic "called Option::unwrap() on a None value"
  else
    match envAncestor s r distance with
    | .ok a =>
      match s.envs.get? a with
      | none => .panic "dangling environment reference"
      | some f =>
        match alistGet f.values name with
        | some v => .ok v
        | none => .panic "called Option::unwrap() on a None value"
    | .err e => .err e
    | .panic m => .panic m
    | .timeout => .timeout

/-- environment.rs `Environment::assign_at`: inserts into the frame
`ancestor(distance)` — with no special case for distance 0, unlike
`get_at`, so the `assert!(distance > 0)` in `ancestor` fires there. -/
def envAssignAt (s : Store) (r : Nat) (distance : Nat) (name : Token) (v : Obj) :
    Outcome Store :=
  match envAncestor s r distance with
  | .ok a =>
    match s.envs.get? a with
    | none => .panic "dangling environment reference"
    | some f => .ok (s.setEnv a { f with values := alistPut f.values name.lexeme v })
  | .err e => .err e
  | .panic m => .panic m
  | .timeout => .timeout

end Environments

section Diagnostics

/-- error.rs `report`: the shape of a scan/parse/static diagnostic line. -/
def reportLine (line : Nat) (whereS : String) (message : String) : String :=
  "[line " ++ toString line ++ "] Error" ++ whereS ++ ": " ++ message

/-- error.rs `lox_error_line`. -/
def loxErrorLine (line : Nat) (message : String) : String :=
  reportLine line "" message

/-- error.rs `lox_error_token`: ` at end` for the eof token, else
` at '<lexeme>'`. -/
def loxErrorToken (t : Token) (message : String) : String :=
  if t.typ = .eof then reportLine t.line " at end" message
  else reportLine t.line (" at \x27" ++ t.lexeme ++ "\x27") message

/-- error.rs `lox_runtime_error`: the message, then `[line N]`. -/
def loxRuntimeError (t : Token) (message : String) : String :=
  message ++ "\n[line " ++ toString t.line ++ "]"

end Diagnostics

section Scanner

/-- scanner.rs `KEYWORDS`. -/
def keywords : List (String × TokenType) :=
  [("and", .andKw), ("class", .classKw), ("else", .elseKw), ("false", .falseKw),
   ("for", .forKw), ("fun", .funKw), ("if", .ifKw), ("nil", .nilKw),
   ("or", .orKw), ("print", .printKw), ("return", .returnKw), ("super", .superKw),
   ("this", .thisKw), ("true", .trueKw), ("var", .varKw), ("while", .whileKw)]

/-- scanner.rs `Scanner` (with the reported diagnostics collected in
`errors`). -/
structure ScanState where
  source : List Char
  tokens : List Token
  start : Nat
  current : Nat
  line : Nat
  errors : List String

namespace ScanState

/-- scanner.rs `Scanner::new`. -/
def new (source : String) : ScanState :=
  { source := source.data, tokens := [], start := 0, current := 0, line := 1,
    errors := [] }

/-- scanner.rs `is_at_end`. -/
def isAtEnd (s : ScanState) : Bool :=
  s.current ≥ s.source.length

/-- scanner.rs `advance` (callers only invoke it when not at end, so the
out-of-bounds panic of `self.source[self.current]` is unreachable; the
model returns NUL there). -/
def advance (s : ScanState) : Char × ScanState :=
  (s.source.getD s.current '\x00', { s with current := s.current + 1 })

/-- scanner.rs `peek`. -/
def peek (s : ScanState) : Char :=
  if s.isAtEnd then '\x00' else s.source.getD s.current '\x00'

/-- scanner.rs `peek_next`. -/
def peekNext (s : ScanState) : Char :=
  if s.current + 1 ≥ s.source.length then '\x00' else s.source.getD (s.current + 1) '\x00'

/-- scanner.rs `match_char`. -/
def matchChar (s : ScanState) (expected : Char) : Bool × ScanState :=
  if s.isAtEnd then (false, s)
  else if s.source.getD s.current '\x00' ≠ expected then (false, s)
  else (true, { s with current := s.current + 1 })

/-- The lexeme `self.source[self.start..self.current]`. -/
def lexemeText (s : ScanState) : String :=
  String.mk ((s.source.drop s.start).take (s.current - s.start))

/-- scanner.rs `add_token`. -/
def addToken (s : ScanState) (typ : TokenType) (literal : Lit) : ScanState :=
  { s with tokens := s.tokens ++ [⟨typ, s.lexemeText, literal, s.line⟩] }

/-- scanner.rs `is_alpha`. -/
def isAlpha (c : Char) : Bool :=
  ('a' ≤ c ∧ c ≤ 'z') ∨ ('A' ≤ c ∧ c ≤ 'Z') ∨ c = '_'

/-- scanner.rs `is_digit`. -/
def isDigit (c : Char) : Bool :=
  '0' ≤ c ∧ c ≤ '9'

/-- scanner.rs `is_alpha_numeric`. -/
def isAlphaNumeric (c : Char) : Bool :=
  isAlpha c ∨ isDigit c

end ScanState

/-- A scanner `while` loop that advances past characters satisfying `p`
(the digit/identifier/comment loops of scanner.rs).  `gas` bounds the
iteration count; callers pass at least `source.length + 1`, which the
loops never exhaust. -/
def skipWhile (gas : Nat) (p : Char → Bool) (s : ScanState) : ScanState :=
  match gas with
  | 0 => s
  | gas + 1 =>
    if ¬ s.isAtEnd ∧ p s.peek then skipWhile gas p (s.advance).2 else s

/-- The character-consuming loop of scanner.rs `string`: advance to the
closing quote or the end of input, counting newlines. -/
def scanStringGo (gas : Nat) (s : ScanState) : ScanState :=
  match gas with
  | 0 => s
  | gas + 1 =>
    if s.peek ≠ '"' ∧ ¬ s.isAtEnd then
      let s := if s.peek = '\n' then { s with line := s.line + 1 } else s
      scanStringGo gas (s.advance).2
    else s

/-- Decimal value of a digit run. -/
def digitsVal (cs : List Char) : Nat :=
  cs.foldl (fun acc c => acc * 10 + (c.toNat - '0'.toNat)) 0

/-- scanner.rs `number`'s `str.parse().unwrap()` on `[0-9]+(\.[0-9]+)?`
(exact rational value; `f64` rounding is outside the model). -/
def parseNumLexeme (cs : List Char) : LoxNum :=
  let intPart := cs.takeWhile (fun c => c ≠ '.')
  let fracPart := (cs.dropWhile (fun c => c ≠ '.')).drop 1
  let scale := 10 ^ fracPart.length
  .fin (mkRat (Int.ofNat (digitsVal intPart * scale + digitsVal fracPart)) scale)

/-- scanner.rs `string` (returns the state and whether it reported an
unterminated string).  The error is reported with `self.line` as it
stands *after* the newline counting of the loop. -/
def scanString (s : ScanState) : ScanState × Bool :=
  let s := scanStringGo (s.source.length + 1) s
  if s.isAtEnd then
    ({ s with errors := s.errors ++ [loxErrorLine s.line "Unterminated string."] }, true)
  else
    let s := (s.advance).2
    let value := String.mk (((s.source.drop (s.start + 1))).take (s.current - 1 - (s.start + 1)))
    (s.addToken .stringTok (.str value), false)

/-- scanner.rs `number`. -/
def scanNumber (s : ScanState) : ScanState :=
  let s := skipWhile (s.source.length + 1) ScanState.isDigit s
  let s :=
    if s.peek = '.' ∧ ScanState.isDigit s.peekNext then
      let s := (s.advance).2
      skipWhile (s.source.length + 1) ScanState.isDigit s
    else s
  let value := parseNumLexeme ((s.source.drop s.start).take (s.current - s.start))
  s.addToken .number (.num value)

/-- scanner.rs `identifier`. -/
def scanIdentifier (s : ScanState) : ScanState :=
  let s := skipWhile (s.source.length + 1) ScanState.isAlphaNumeric s
  let text := s.lexemeText
  match alistGet keywords text with
  | some typ => s.addToken typ .null
  | none => s.addToken .identifier .null

/-- scanner.rs `scan_token` (the returned flag is `is_err()`). -/
def scanToken (s : ScanState) : ScanState × Bool :=
  let (c, s) := s.advance
  if c = '(' then (s.addToken .leftParen .null, false)
  else if c = ')' then (s.addToken .rightParen .null, false)
  else if c = '\x7b' then (s.addToken .leftBrace .null, false)
  else if c = '\x7d' then (s.addToken .rightBrace .null, false)
  else if c = ',' then (s.addToken .comma .null, false)
  else if c = '.' then (s.addToken .dot .null, false)
  else if c = '-' then (s.addToken .minus .null, false)
  else if c = '+' then (s.addToken .plus .null, false)
  else if c = ';' then (s.addToken .semicolon .null, false)
  else if c = '*' then (s.addToken .star .null, false)
  else if c = '!' then
    let (m, s) := s.matchChar '='
    (s.addToken (if m then .bangEqual else .bang) .null, false)
  else if c = '=' then
    let (m, s) := s.matchChar '='
    (s.addToken (if m then .equalEqual else .equal) .null, false)
  else if c = '<' then
    let (m, s) := s.matchChar '='
    (s.addToken (if m then .lessEqual else .less) .null, false)
  else if c = '>' then
    let (m, s) := s.matchChar '='
    (s.addToken (if m then .greaterEqual else .greater) .null, false)
  else if c = '/' then
    let (m, s) := s.matchChar '/'
    if m then (skipWhile (s.source.length + 1) (fun ch => ch ≠ '\n') s, false)
    else (s.addToken .slash .null, false)
  else if c = ' ' ∨ c = '\r' ∨ c = '\t' then (s, false)
  else if c = '\n' then ({ s with line := s.line + 1 }, false)
  else if c = '"' then scanString s
  else if ScanState.isDigit c then (scanNumber s, false)
  else if ScanState.isAlpha c then (scanIdentifier s, false)
  else
    ({ s with errors := s.errors ++ [loxErrorLine s.line "Unexpected character."] }, true)

/-- The `while !self.is_at_end()` loop of scanner.rs `scan_tokens`,
accumulating `had_error`. -/
def scanLoop (gas : Nat) (s : ScanState) (hadError : Bool) : ScanState × Bool :=
  match gas with
  | 0 => (s, hadError)
  | gas + 1 =>
    if ¬ s.isAtEnd then
      let s := { s with start := s.current }
      let (s, isErr) := scanToken s
      scanLoop gas s (hadError ∨ isErr)
    else (s, hadError)

/-- scanner.rs `scan_tokens`: scan every lexeme, fail on any scan error,
otherwise append the `eof` sentinel.  The second component of a success
carries the diagnostics (always empty then). -/
def scanTokens (source : String) : Outcome (List Token) × List String :=
  let s0 := ScanState.new source
  let (s, hadError) := scanLoop (s0.source.length + 1) s0 false
  if hadError then (.err .scanError, s.errors)
  else (.ok (s.tokens ++ [⟨.eof, "", .null, s.line⟩]), s.errors)

end Scanner

section Parser

/-- parser.rs `Parser` (with reported diagnostics collected, and the
`Uuid` generator replaced by the `nextId` counter). -/
structure PState where
  tokens : List Token
  current : Nat
  hadError : Bool
  errors : List String
  nextId : Nat

/-- The parser computations: `&mut self` methods returning
`Result<α, LoxError>`. -/
def PM (α : Type) : Type := PState → Outcome α × PState

instance : Monad PM where
  pure a := fun s => (.ok a, s)
  bind m f := fun s =>
    match m s with
    | (.ok a, s) => f a s
    | (.err e, s) => (.err e, s)
    | (.panic msg, s) => (.panic msg, s)
    | (.timeout, s) => (.timeout, s)

def pGet : PM PState := fun s => (.ok s, s)

def pModify (f : PState → PState) : PM Unit := fun s => (.ok (), f s)

def pThrow {α : Type} (e : LoxError) : PM α := fun s => (.err e, s)

def pTimeout {α : Type} : PM α := fun s => (.timeout, s)

/-- The sentinel used to totalize token indexing; parser.rs relies on the
scanner's trailing `eof` token and never actually reads past it. -/
def eofFallback : Token := ⟨.eof, "", .null, 0⟩

/-- parser.rs `peek`. -/
def peekT : PM Token := fun s => (.ok (s.tokens.getD s.current eofFallback), s)

/-- parser.rs `previous`. -/
def previousT : PM Token := fun s => (.ok (s.tokens.getD (s.current - 1) eofFallback), s)

/-- parser.rs `is_at_end`. -/
def pIsAtEnd : PM Bool := do
  let t ← peekT
  pure (t.typ = .eof)

/-- parser.rs `check`. -/
def pCheck (typ : TokenType) : PM Bool := do
  if ← pIsAtEnd then pure false
  else do
    let t ← peekT
    pure (t.typ = typ)

/-- parser.rs `advance`. -/
def pAdvance : PM Token := do
  if ¬ (← pIsAtEnd) then pModify (fun s => { s with current := s.current + 1 })
  previousT

/-- parser.rs `match_tokentype`. -/
def pMatch (types : List TokenType) : PM Bool := do
  match types with
  | [] => pure false
  | typ :: rest =>
    if ← pCheck typ then do
      let _ ← pAdvance
      pure true
    else pMatch rest

/-- parser.rs `error`: report the token diagnostic, set `had_error`, and
hand back `LoxError::ParseError` for the caller to raise. -/
def pMkError (t : Token) (message : String) : PM LoxError := do
  pModify (fun s =>
    { s with hadError := true, errors := s.errors ++ [loxErrorToken t message] })
  pure .parseError

/-- parser.rs `consume`. -/
def pConsume (typ : TokenType) (message : String) : PM Token := do
  if ← pCheck typ then pAdvance
  else do
    let t ← peekT
    let e ← pMkError t message
    pThrow e

/-- A fresh node identity (`Uuid::new_v4` in expr.rs). -/
def pFreshId : PM Nat := fun s => (.ok s.nextId, { s with nextId := s.nextId + 1 })

/-- parser.rs `synchronize`: discard tokens until just past a `;` or just
before a statement keyword. -/
def pSynchronize (gas : Nat) : PM Unit := do
  let _ ← pAdvance
  pSyncLoop gas
where
  pSyncLoop : Nat → PM Unit
    | 0 => pTimeout
    | gas + 1 => do
      if ← pIsAtEnd then pure ()
      else do
        let prev ← previousT
        if prev.typ = .semicolon then pure ()
        else do
          let t ← peekT
          match t.typ with
          | .classKw | .funKw | .varKw | .forKw | .ifKw | .whileKw | .printKw
          | .returnKw => pure ()
          | _ => do
            let _ ← pAdvance
            pSyncLoop gas

mutual

/-- parser.rs `declaration` (catches `ParseError`, synchronizes, and
reports `None` for the discarded statement). -/
def pDeclaration (g : Nat) : PM (Option Stmt) :=
  match g with
  | 0 => pTimeout
  | g + 1 => fun s =>
    let inner : PM Stmt := do
      if ← pMatch [.classKw] then pClassDeclaration g
      else if ← pMatch [.funKw] then pFunction g "function"
      else if ← pMatch [.varKw] then pVarDeclaration g
      else pStatement g
    match inner s with
    | (.ok stmt, s) => (.ok (some stmt), s)
    | (.err .parseError, s) =>
      (do
        pSynchronize (s.tokens.length + 1)
        pure none : PM (Option Stmt)) s
    | (.err e, s) => (.err e, s)
    | (.panic msg, s) => (.panic msg, s)
    | (.timeout, s) => (.timeout, s)

/-- parser.rs `statement`. -/
def pStatement (g : Nat) : PM Stmt :=
  match g with
  | 0 => pTimeout
  | g + 1 => do
    if ← pMatch [.forKw] then pForStatement g
    else if ← pMatch [.ifKw] then pIfStatement g
    else if ← pMatch [.printKw] then pPrintStatement g
    else if ← pMatch [.returnKw] then pReturnStatement g
    else if ← pMatch [.whileKw] then pWhileStatement g
    else if ← pMatch [.leftBrace] then do
      let statements ← pBlock g
      pure (Stmt.block statements)
    else pExpressionStatement g

/-- parser.rs `for_statement` (desugars to while). -/
def pForStatement (g : Nat) : PM Stmt :=
  match g with
  | 0 => pTimeout
  | g + 1 => do
    let _ ← pConsume .leftParen "Expect \x27(\x27 after \x27for\x27."
    let initializer ←
      (do
        if ← pMatch [.semicolon] then pure none
        else if ← pMatch [.varKw] then do
          let st ← pVarDeclaration g
          pure (some st)
        else do
          let st ← pExpressionStatement g
          pure (some st) : PM (Option Stmt))
    let condition ←
      (do
        if ¬ (← pCheck .semicolon) then do
          let e ← pExpression g
          pure (some e)
        else pure none : PM (Option Expr))
    let _ ← pConsume .semicolon "Expect \x27;\x27 after loop condition."
    let increment ←
      (do
        if ¬ (← pCheck .rightParen) then do
          let e ← pExpression g
          pure (some e)
        else pure none : PM (Option Expr))
    let _ ← pConsume .rightParen "Expect \x27)\x27 after for clauses."
    let body ← pStatement g
    let body :=
      match increment with
      | some inc => Stmt.block [body, Stmt.expression inc]
      | none => body
    let condition ←
      (match condition with
       | some c => pure c
       | none => do
         let i ← pFreshId
         pure (Expr.literal i (.bool true)) : PM Expr)
    let body := Stmt.whileS condition body
    let body :=
      match initializer with
      | some ini => Stmt.block [ini, body]
      | none => body
    pure body

/-- parser.rs `if_statement`. -/
def pIfStatement (g : Nat) : PM Stmt :=
  match g with
  | 0 => pTimeout
  | g + 1 => do
    let _ ← pConsume .leftParen "Expect \x27(\x27 after \x27if\x27."
    let condition ← pExpression g
    let _ ← pConsume .rightParen "Expect \x27)\x27 after if condition."
    let thenBranch ← pStatement g
    if ← pMatch [.elseKw] then do
      let elseBranch ← pStatement g
      pure (Stmt.ifS condition thenBranch (some elseBranch))
    else pure (Stmt.ifS condition thenBranch none)

/-- parser.rs `print_statement`. -/
def pPrintStatement (g : Nat) : PM Stmt :=
  match g with
  | 0 => pTimeout
  | g + 1 => do
    let value ← pExpression g
    let _ ← pConsume .semicolon "Expect \x27;\x27 after value."
    pure (Stmt.print value)

/-- parser.rs `return_statement`. -/
def pReturnStatement (g : Nat) : PM Stmt :=
  match g with
  | 0 => pTimeout
  | g + 1 => do
    let keyword ← previousT
    let value ←
      (do
        if ¬ (← pCheck .semicolon) then do
          let e ← pExpression g
          pure (some e)
        else pure none : PM (Option Expr))
    let _ ← pConsume .semicolon "Expect \x27;\x27 after return value."
    pure (Stmt.returnS keyword value)

/-- parser.rs `while_statement`. -/
def pWhileStatement (g : Nat) : PM Stmt :=
  match g with
  | 0 => pTimeout
  | g + 1 => do
    let _ ← pConsume .leftParen "Expect \x27(\x27 after \x27while\x27."
    let condition ← pExpression g
    let _ ← pConsume .rightParen "Expect \x27)\x27 after condition."
    let body ← pStatement g
    pure (Stmt.whileS condition body)

/-- parser.rs `function` (declarations and methods). -/
def pFunction (g : Nat) (kind : String) : PM Stmt :=
  match g with
  | 0 => pTimeout
  | g + 1 => do
    let name ← pConsume .identifier ("Expect " ++ kind ++ " name.")
    let _ ← pConsume .leftParen ("Expect \x27(\x27 after " ++ kind ++ " name.")
    let parameters ←
      (do
        if ¬ (← pCheck .rightParen) then pParamsLoop g []
        else pure [] : PM (List Token))
    let _ ← pConsume .rightParen "Expect \x27)\x27 after parameters."
    let _ ← pConsume .leftBrace ("Expect \x27\x7b\x27 before " ++ kind ++ " body.")
    let body ← pBlock g
    pure (Stmt.function name parameters body)

/-- The do-while parameter loop of parser.rs `function`. -/
def pParamsLoop (g : Nat) (acc : List Token) : PM (List Token) :=
  match g with
  | 0 => pTimeout
  | g + 1 => do
    if acc.length ≥ 255 then do
      let t ← peekT
      pModify (fun s =>
        { s with hadError := true,
                 errors := s.errors ++
                   [loxErrorToken t "Can\x27t have more than 255 parameters."] })
    let ident ← pConsume .identifier "Expect parameter name."
    let acc := acc ++ [ident]
    if ← pMatch [.comma] then pParamsLoop g acc else pure acc

/-- parser.rs `class_declaration`: a name and a braced list of methods —
the provided parser consumes no superclass clause (it was written against
the stmt.rs without a superclass field, so the modelled `classDecl`
carries `none`). -/
def pClassDeclaration (g : Nat) : PM Stmt :=
  match g with
  | 0 => pTimeout
  | g + 1 => do
    let name ← pConsume .identifier "Expect class name."
    let _ ← pConsume .leftBrace "Expect \x27\x7b\x27 before class body."
    let methods ← pMethodsLoop g []
    let _ ← pConsume .rightBrace "Expect \x27\x7d\x27 after class body."
    pure (Stmt.classDecl name none methods)

/-- The method loop of parser.rs `class_declaration`. -/
def pMethodsLoop (g : Nat) (acc : List Stmt) : PM (List Stmt) :=
  match g with
  | 0 => pTimeout
  | g + 1 => do
    if ¬ (← pCheck .rightBrace) ∧ ¬ (← pIsAtEnd) then do
      let m ← pFunction g "method"
      pMethodsLoop g (acc ++ [m])
    else pure acc

/-- parser.rs `var_declaration`. -/
def pVarDeclaration (g : Nat) : PM Stmt :=
  match g with
  | 0 => pTimeout
  | g + 1 => do
    let name ← pConsume .identifier "Expect variable name."
    let initializer ←
      (do
        if ← pMatch [.equal] then do
          let e ← pExpression g
          pure (some e)
        else pure none : PM (Option Expr))
    let _ ← pConsume .semicolon "Expect \x27;\x27 after variable declaration."
    pure (Stmt.varS name initializer)

/-- parser.rs `expression_statement`. -/
def pExpressionStatement (g : Nat) : PM Stmt :=
  match g with
  | 0 => pTimeout
  | g + 1 => do
    let e ← pExpression g
    let _ ← pConsume .semicolon "Expect \x27;\x27 after expression."
    pure (Stmt.expression e)

/-- parser.rs `block`. -/
def pBlock (g : Nat) : PM (List Stmt) :=
  match g with
  | 0 => pTimeout
  | g + 1 => do
    let statements ← pBlockLoop g []
    let _ ← pConsume .rightBrace "Expect \x27\x7d\x27 after block."
    pure statements

/-- The statement loop of parser.rs `block`. -/
def pBlockLoop (g : Nat) (acc : List Stmt) : PM (List Stmt) :=
  match g with
  | 0 => pTimeout
  | g + 1 => do
    if ¬ (← pCheck .rightBrace) ∧ ¬ (← pIsAtEnd) then do
      let stmt ← pDeclaration g
      match stmt with
      | some st => pBlockLoop g (acc ++ [st])
      | none => pBlockLoop g acc
    else pure acc

/-- parser.rs `expression`. -/
def pExpression (g : Nat) : PM Expr :=
  match g with
  | 0 => pTimeout
  | g + 1 => pAssignment g

/-- parser.rs `assignment`: only a `Variable` left-hand side becomes an
`Assign`; every other shape (a `Get` included) reports "Invalid
assignment target.", sets `had_error` without throwing, and is returned
unchanged. -/
def pAssignment (g : Nat) : PM Expr :=
  match g with
  | 0 => pTimeout
  | g + 1 => do
    let expr ← pOr g
    if ← pMatch [.equal] then do
      let equals ← previousT
      let value ← pAssignment g
      match expr with
      | .var_ _ name => do
        let i ← pFreshId
        pure (Expr.assign i name value)
      | _ => do
        pModify (fun s =>
          { s with hadError := true,
                   errors := s.errors ++
                     [loxErrorToken equals "Invalid assignment target."] })
        pure expr
    else pure expr

/-- parser.rs `or`. -/
def pOr (g : Nat) : PM Expr :=
  match g with
  | 0 => pTimeout
  | g + 1 => do
    let expr ← pAnd g
    pOrRest g expr

def pOrRest (g : Nat) (expr : Expr) : PM Expr :=
  match g with
  | 0 => pTimeout
  | g + 1 => do
    if ← pMatch [.orKw] then do
      let operator ← previousT
      let right ← pAnd g
      let i ← pFreshId
      pOrRest g (Expr.logical i expr operator right)
    else pure expr

/-- parser.rs `and`. -/
def pAnd (g : Nat) : PM Expr :=
  match g with
  | 0 => pTimeout
  | g + 1 => do
    let expr ← pEquality g
    pAndRest g expr

def pAndRest (g : Nat) (expr : Expr) : PM Expr :=
  match g with
  | 0 => pTimeout
  | g + 1 => do
    if ← pMatch [.andKw] then do
      let operator ← previousT
      let right ← pEquality g
      let i ← pFreshId
      pAndRest g (Expr.logical i expr operator right)
    else pure expr

/-- parser.rs `equality`. -/
def pEquality (g : Nat) : PM Expr :=
  match g with
  | 0 => pTimeout
  | g + 1 => do
    let expr ← pComparison g
    pEqualityRest g expr

def pEqualityRest (g : Nat) (expr : Expr) : PM Expr :=
  match g with
  | 0 => pTimeout
  | g + 1 => do
    if ← pMatch [.bangEqual, .equalEqual] then do
      let operator ← previousT
      let right ← pComparison g
      let i ← pFreshId
      pEqualityRest g (Expr.binary i expr operator right)
    else pure expr

/-- parser.rs `comparison`. -/
def pComparison (g : Nat) : PM Expr :=
  match g with
  | 0 => pTimeout
  | g + 1 => do
    let expr ← pTerm g
    pComparisonRest g expr

def pComparisonRest (g : Nat) (expr : Expr) : PM Expr :=
  match g with
  | 0 => pTimeout
  | g + 1 => do
    if ← pMatch [.greater, .greaterEqual, .less, .lessEqual] then do
      let operator ← previousT
      let right ← pTerm g
      let i ← pFreshId
      pComparisonRest g (Expr.binary i expr operator right)
    else pure expr

/-- parser.rs `term`. -/
def pTerm (g : Nat) : PM Expr :=
  match g with
  | 0 => pTimeout
  | g + 1 => do
    let expr ← pFactor g
    pTermRest g expr

def pTermRest (g : Nat) (expr : Expr) : PM Expr :=
  match g with
  | 0 => pTimeout
  | g + 1 => do
    if ← pMatch [.minus, .plus] then do
      let operator ← previousT
      let right ← pFactor g
      let i ← pFreshId
      pTermRest g (Expr.binary i expr operator right)
    else pure expr

/-- parser.rs `factor`. -/
def pFactor (g : Nat) : PM Expr :=
  match g with
  | 0 => pTimeout
  | g + 1 => do
    let expr ← pUnary g
    pFactorRest g expr

def pFactorRest (g : Nat) (expr : Expr) : PM Expr :=
  match g with
  | 0 => pTimeout
  | g + 1 => do
    if ← pMatch [.slash, .star] then do
      let operator ← previousT
      let right ← pUnary g
      let i ← pFreshId
      pFactorRest g (Expr.binary i expr operator right)
    else pure expr

/-- parser.rs `unary`. -/
def pUnary (g : Nat) : PM Expr :=
  match g with
  | 0 => pTimeout
  | g + 1 => do
    if ← pMatch [.bang, .minus] then do
      let operator ← previousT
      let right ← pUnary g
      let i ← pFreshId
      pure (Expr.unary i operator right)
    else pCall g

/-- parser.rs `call`. -/
def pCall (g : Nat) : PM Expr :=
  match g with
  | 0 => pTimeout
  | g + 1 => do
    let expr ← pPrimary g
    pCallRest g expr

def pCallRest (g : Nat) (expr : Expr) : PM Expr :=
  match g with
  | 0 => pTimeout
  | g + 1 => do
    if ← pMatch [.leftParen] then do
      let expr ← pFinishCall g expr
      pCallRest g expr
    else if ← pMatch [.dot] then do
      let name ← pConsume .identifier "Expect property name after \x27.\x27."
      let i ← pFreshId
      pCallRest g (Expr.get i expr name)
    else pure expr

/-- parser.rs `finish_call`. -/
def pFinishCall (g : Nat) (callee : Expr) : PM Expr :=
  match g with
  | 0 => pTimeout
  | g + 1 => do
    let arguments ←
      (do
        if ¬ (← pCheck .rightParen) then pArgsLoop g []
        else pure [] : PM (List Expr))
    let paren ← pConsume .rightParen "Expect \x27)\x27 after arguments."
    let i ← pFreshId
    pure (Expr.call i callee paren arguments)

/-- The do-while argument loop of parser.rs `finish_call`. -/
def pArgsLoop (g : Nat) (acc : List Expr) : PM (List Expr) :=
  match g with
  | 0 => pTimeout
  | g + 1 => do
    if acc.length ≥ 255 then do
      let t ← peekT
      pModify (fun s =>
        { s with hadError := true,
                 errors := s.errors ++
                   [loxErrorToken t "Can\x27t have more than 255 arguments."] })
    let e ← pExpression g
    let acc := acc ++ [e]
    if ← pMatch [.comma] then pArgsLoop g acc else pure acc

/-- parser.rs `primary`: `true`, `false`, `nil`, number/string literals,
identifiers and parenthesised expressions — the provided parser has no
arm for `this` or for `super "." IDENT`; those token kinds fall to the
"Expect expression." error. -/
def pPrimary (g : Nat) : PM Expr :=
  match g with
  | 0 => pTimeout
  | g + 1 => do
    if ← pMatch [.falseKw] then do
      let i ← pFreshId
      pure (Expr.literal i (.bool false))
    else if ← pMatch [.trueKw] then do
      let i ← pFreshId
      pure (Expr.literal i (.bool true))
    else if ← pMatch [.nilKw] then do
      let i ← pFreshId
      pure (Expr.literal i .null)
    else if ← pMatch [.number, .stringTok] then do
      let prev ← previousT
      let i ← pFreshId
      pure (Expr.literal i prev.literal)
    else if ← pMatch [.identifier] then do
      let name ← previousT
      let i ← pFreshId
      pure (Expr.var_ i name)
    else if ← pMatch [.leftParen] then do
      let expr ← pExpression g
      let _ ← pConsume .rightParen "Expect \x27)\x27 after expression."
      let i ← pFreshId
      pure (Expr.grouping i expr)
    else do
      let t ← peekT
      let e ← pMkError t "Expect expression."
      pThrow e

end

/-- The statement loop of parser.rs `parse`. -/
def pParseLoop (gas : Nat) (g : Nat) (acc : List Stmt) : PM (List Stmt) :=
  match gas with
  | 0 => pTimeout
  | gas + 1 => do
    if ¬ (← pIsAtEnd) then do
      let stmt ← pDeclaration g
      match stmt with
      | some st => pParseLoop gas g (acc ++ [st])
      | none => pParseLoop gas g acc
    else pure acc

/-- parser.rs `parse`: reset `had_error`, parse declarations to the end,
and fail with the `ParseError` aggregate when any diagnostic was
reported.  The second component carries the diagnostics. -/
def parse (tokens : List Token) : Outcome (List Stmt) × List String :=
  let s0 : PState :=
    { tokens := tokens, current := 0, hadError := false, errors := [], nextId := 0 }
  let g := 2 * tokens.length + 10
  match pParseLoop (tokens.length + 1) g [] s0 with
  | (.ok statements, s) =>
    if s.hadError then (.err .parseError, s.errors) else (.ok statements, s.errors)
  | (.err e, s) => (.err e, s.errors)
  | (.panic msg, s) => (.panic msg, s.errors)
  | (.timeout, s) => (.timeout, s.errors)

end Parser

section Resolver

/-- resolver.rs `FunctionType`. -/
inductive FunctionType where
  | noneF | functionF | initializerF | methodF
deriving DecidableEq, Repr

/-- resolver.rs `ClassType`. -/
inductive ClassType where
  | noneC | classC | subclassC
deriving DecidableEq, Repr

/-- resolver.rs `Resolver` plus the interpreter side-table it writes
through `Interpreter::resolve`.  `scopes` lists the innermost scope first
(the top of the Rust `Vec`).  `panicked` records the
`StmtClass.methods must contain Stmt::Function only.` panic, which no
parser output can trigger; `gasOut` is the fuel artifact of the embedding
(the Rust recursion is structural over the AST and always terminates). -/
structure RState where
  scopes : List (List (String × Bool))
  currentFunction : FunctionType
  currentClass : ClassType
  hadError : Bool
  errors : List String
  locals : List (Nat × Nat)
  panicked : Bool
  gasOut : Bool

/-- resolver.rs `begin_scope`. -/
def rBeginScope (s : RState) : RState :=
  { s with scopes := [] :: s.scopes }

/-- resolver.rs `end_scope`. -/
def rEndScope (s : RState) : RState :=
  { s with scopes := s.scopes.tail }

/-- resolver.rs `declare`: nothing in the global scope; a duplicate in the
innermost scope is reported; the name is then marked "declared, not yet
defined". -/
def rDeclare (name : Token) (s : RState) : RState :=
  match s.scopes with
  | [] => s
  | top :: rest =>
    let s :=
      if alistHas top name.lexeme then
        { s with hadError := true,
                 errors := s.errors ++
                   [loxErrorToken name "Already a variable with this name in this scope."] }
      else s
    { s with scopes := alistPut top name.lexeme false :: rest }

/-- resolver.rs `define`. -/
def rDefine (name : Token) (s : RState) : RState :=
  match s.scopes with
  | [] => s
  | top :: rest => { s with scopes := alistPut top name.lexeme true :: rest }

/-- The innermost-outward scan of resolver.rs `resolve_local`. -/
def scopeDepth (name : String) : List (List (String × Bool)) → Nat → Option Nat
  | [], _ => none
  | scope :: rest, i =>
    if alistHas scope name then some i else scopeDepth name rest (i + 1)

/-- resolver.rs `resolve_local`: record the depth of the innermost scope
that knows the name, or nothing (global). -/
def rResolveLocal (expr : Expr) (name : Token) (s : RState) : RState :=
  match scopeDepth name.lexeme s.scopes 0 with
  | some i => { s with locals := localsPut s.locals expr.exprId i }
  | none => s

mutual

/-- resolver.rs `StmtVisitor` dispatch (`resolve_stmt`). -/
def resolveStmt (g : Nat) (stmt : Stmt) (s : RState) : RState :=
  match g with
  | 0 => { s with gasOut := true }
  | g + 1 =>
    match stmt with
    | .expression e => resolveExpr g e s
    | .print e => resolveExpr g e s
    | .varS name initializer =>
      let s := rDeclare name s
      let s :=
        match initializer with
        | some e => resolveExpr g e s
        | none => s
      rDefine name s
    | .block statements => rEndScope (resolveStmts g statements (rBeginScope s))
    | .ifS condition thenBranch elseBranch =>
      let s := resolveExpr g condition s
      let s := resolveStmt g thenBranch s
      (match elseBranch with
       | some e => resolveStmt g e s
       | none => s)
    | .whileS condition body => resolveStmt g body (resolveExpr g condition s)
    | .function name params body =>
      let s := rDefine name (rDeclare name s)
      resolveFunctionDecl g params body .functionF s
    | .returnS keyword value =>
      let s :=
        if s.currentFunction = .noneF then
          { s with hadError := true,
                   errors := s.errors ++
                     [loxErrorToken keyword "Can\x27t return from top-level code."] }
        else s
      (match value with
       | some v =>
         let s :=
           if s.currentFunction = .initializerF then
             { s with hadError := true,
                      errors := s.errors ++
                        [loxErrorToken keyword "Can\x27t return a value from an initializer."] }
           else s
         resolveExpr g v s
       | none => s)
    | .classDecl name superclass methods =>
      let enclosingClass := s.currentClass
      let s := { s with currentClass := .classC }
      let s := rDefine name (rDeclare name s)
      let s :=
        match superclass with
        | some (.var_ _ vname) =>
          if name.lexeme = vname.lexeme then
            { s with hadError := true,
                     errors := s.errors ++
                       [loxErrorToken vname "A class can\x27t inherit from itself."] }
          else s
        | _ => s
      let s :=
        match superclass with
        | some sc => resolveExpr g sc { s with currentClass := .subclassC }
        | none => s
      let s :=
        if superclass.isSome then
          match (rBeginScope s).scopes with
          | top :: rest => { s with scopes := alistPut top "super" true :: rest }
          | [] => s
        else s
      let s :=
        match (rBeginScope s).scopes with
        | top :: rest => { s with scopes := alistPut top "this" true :: rest }
        | [] => s
      let s := resolveMethods g methods s
      let s := rEndScope s
      let s := if superclass.isSome then rEndScope s else s
      { s with currentClass := enclosingClass }

/-- resolver.rs `resolve_stmts`. -/
def resolveStmts (g : Nat) (statements : List Stmt) (s : RState) : RState :=
  match g with
  | 0 => { s with gasOut := true }
  | g + 1 =>
    match statements with
    | [] => s
    | stmt :: rest => resolveStmts g rest (resolveStmt g stmt s)

/-- The method loop of resolver.rs `visit_class_stmt`.  The Rust code
panics on a non-`Function` method statement (recorded in `panicked`;
unreachable from the parser). -/
def resolveMethods (g : Nat) (methods : List Stmt) (s : RState) : RState :=
  match g with
  | 0 => { s with gasOut := true }
  | g + 1 =>
    match methods with
    | [] => s
    | .function name params body :: rest =>
      let declaration : FunctionType :=
        if name.lexeme = "init" then .initializerF else .methodF
      resolveMethods g rest (resolveFunctionDecl g params body declaration s)
    | _ :: rest => resolveMethods g rest { s with panicked := true }

/-- resolver.rs `resolve_function`. -/
def resolveFunctionDecl (g : Nat) (params : List Token) (body : List Stmt)
    (ftype : FunctionType) (s : RState) : RState :=
  match g with
  | 0 => { s with gasOut := true }
  | g + 1 =>
    let enclosingFunction := s.currentFunction
    let s := { s with currentFunction := ftype }
    let s := rBeginScope s
    let s := params.foldl (fun s param => rDefine param (rDeclare param s)) s
    let s := resolveStmts g body s
    let s := rEndScope s
    { s with currentFunction := enclosingFunction }

/-- resolver.rs `ExprVisitor` dispatch (`resolve_expr`). -/
def resolveExpr (g : Nat) (expr : Expr) (s : RState) : RState :=
  match g with
  | 0 => { s with gasOut := true }
  | g + 1 =>
    match expr with
    | .literal _ _ => s
    | .unary _ _ right => resolveExpr g right s
    | .binary _ left _ right => resolveExpr g right (resolveExpr g left s)
    | .grouping _ inner => resolveExpr g inner s
    | .var_ _ name =>
      let s :=
        if s.scopes ≠ [] ∧ alistGet (s.scopes.headD []) name.lexeme = some false then
          { s with hadError := true,
                   errors := s.errors ++
                     [loxErrorToken name
                       "Can\x27t read local variable in its own initializer."] }
        else s
      rResolveLocal expr name s
    | .assign _ name value =>
      let s := resolveExpr g value s
      rResolveLocal expr name s
    | .logical _ left _ right => resolveExpr g right (resolveExpr g left s)
    | .call _ callee _ arguments => resolveExprs g arguments (resolveExpr g callee s)
    | .get _ object _ => resolveExpr g object s
    | .set _ object _ value => resolveExpr g object (resolveExpr g value s)
    | .this _ keyword =>
      if s.currentClass = .noneC then
        { s with hadError := true,
                 errors := s.errors ++
                   [loxErrorToken keyword "Can\x27t use \x27this\x27 outside of a class."] }
      else rResolveLocal expr keyword s
    | .superE _ keyword _ =>
      let s :=
        if s.currentClass = .noneC then
          { s with hadError := true,
                   errors := s.errors ++
                     [loxErrorToken keyword "Can\x27t use \x27super\x27 outside of a class."] }
        else if s.currentClass ≠ .subclassC then
          -- resolver.rs reports this diagnostic but, unlike every other
          -- static check, does not set `had_error`.
          { s with errors := s.errors ++
              [loxErrorToken keyword "Can\x27t use \x27super\x27 in a class with no superclass."] }
        else s
      rResolveLocal expr keyword s

/-- The argument loop of resolver.rs `visit_call_expr`. -/
def resolveExprs (g : Nat) (exprs : List Expr) (s : RState) : RState :=
  match g with
  | 0 => { s with gasOut := true }
  | g + 1 =>
    match exprs with
    | [] => s
    | e :: rest => resolveExprs g rest (resolveExpr g e s)

end

/-- resolver.rs `Resolver::new`. -/
def resolverInit : RState :=
  { scopes := [], currentFunction := .noneF, currentClass := .noneC,
    hadError := false, errors := [], locals := [], panicked := false,
    gasOut := false }

/-- resolver.rs `Resolver::resolve`: visit everything, then fail with the
`ResolveError` aggregate exactly when `had_error` was set.  The Rust
recursion is structural over the AST and always terminates; the fixed
fuel (ample for every program considered here, and checkable through
`gasOut`) is only the embedding's totalization. -/
def resolveProgram (statements : List Stmt) : Outcome Unit × RState :=
  let s := resolveStmts 1000000 statements resolverInit
  (if s.panicked then .panic "StmtClass.methods must contain Stmt::Function only."
   else if s.hadError then .err .resolveError
   else .ok (), s)

end Resolver

section Interpreter

/-- interpreter.rs `Interpreter` plus the shared heap: current and global
environment frames (numbers into the store), the resolution side-table,
and the collected stdout/stderr lines. -/
structure IState where
  store : Store
  globals : Nat
  environment : Nat
  locals : List (Nat × Nat)
  output : List String
  errout : List String

/-- Interpreter computations: `&mut self` methods returning
`Result<α, LoxError>`. -/
def IM (α : Type) : Type := IState → Outcome α × IState

instance : Monad IM where
  pure a := fun st => (.ok a, st)
  bind m f := fun st =>
    match m st with
    | (.ok a, st) => f a st
    | (.err e, st) => (.err e, st)
    | (.panic msg, st) => (.panic msg, st)
    | (.timeout, st) => (.timeout, st)

def iThrow {α : Type} (e : LoxError) : IM α := fun st => (.err e, st)

def iPanic {α : Type} (msg : String) : IM α := fun st => (.panic msg, st)

def iTimeout {α : Type} : IM α := fun st => (.timeout, st)

def iLift {α : Type} (o : Outcome α) : IM α := fun st => (o, st)

/-- object.rs / lox_callable.rs `Display`: the textual rendering
`visit_print_stmt` writes. -/
def CallableKind.render : CallableKind → String
  | .function f => "<fn " ++ f.declaration.name.lexeme ++ ">"
  | .native _ => "<native fn>"
  | .classK c => c.name

def renderObj (s : Store) : Obj → String
  | .bool b => if b then "true" else "false"
  | .num n => n.render
  | .str v => v
  | .null => "nil"
  | .callable c => c.render
  | .inst r =>
    match s.insts.get? r with
    | some d => d.klass.name ++ " instance"
    | none => "dangling instance"

/-- lox_callable.rs `LoxClass::find_method`: own table first, then the
superclass chain. -/
def LoxClass.findMethod : LoxClass → String → Option LoxFunction
  | .mk _ superclass methods, name =>
    match alistGet methods name with
    | some f => some f
    | none =>
      match superclass with
      | some sc => sc.findMethod name
      | none => none

/-- lox_callable.rs `LoxFunction::bind`: a fresh one-entry environment
binding `this` to the instance, in front of the original closure. -/
def bindFunction (store : Store) (f : LoxFunction) (instRef : Nat) :
    Store × LoxFunction :=
  let (store, envRef) :=
    store.allocEnv ⟨some f.closure, [("this", Obj.inst instRef)]⟩
  (store, { f with closure := envRef })

/-- lox_callable.rs `arity` for each callable kind (a class's arity is its
`init`'s, or 0). -/
def CallableKind.arity : CallableKind → Nat
  | .function f => f.declaration.params.length
  | .native n => n.arity
  | .classK c =>
    match c.findMethod "init" with
    | some i => i.declaration.params.length
    | none => 0

/-- lox_callable.rs `LoxInstance::get`: field, else bound method, else
`Undefined property`. -/
def instGet (r : Nat) (name : Token) : IM Obj := fun st =>
  match st.store.insts.get? r with
  | none => (.panic "dangling instance reference", st)
  | some d =>
    match alistGet d.fields name.lexeme with
    | some v => (.ok v, st)
    | none =>
      match d.klass.findMethod name.lexeme with
      | some m =>
        let (store, f) := bindFunction st.store m r
        (.ok (Obj.callable (.function f)), { st with store := store })
      | none =>
        (.err (.runtimeError name
          ("Undefined property \x27" ++ name.lexeme ++ "\x27.")), st)

/-- lox_callable.rs `LoxInstance::set`. -/
def instSet (r : Nat) (name : Token) (v : Obj) (st : IState) : IState :=
  match st.store.insts.get? r with
  | none => st
  | some d =>
    { st with store :=
        { st.store with
          insts := st.store.insts.set r
            { d with fields := alistPut d.fields name.lexeme v } } }

/-- interpreter.rs `check_number_operand`. -/
def checkNumberOperand (operator : Token) (operand : Obj) : Outcome Unit :=
  if operand.isNum then .ok ()
  else .err (.runtimeError operator "Operand must be a number.")

/-- interpreter.rs `check_number_operands`. -/
def checkNumberOperands (operator : Token) (left right : Obj) : Outcome Unit :=
  if left.isNum ∧ right.isNum then .ok ()
  else .err (.runtimeError operator "Operands must be numbers.")

/-- The operator dispatch of interpreter.rs `visit_binary_expr`, applied to
the two already-evaluated operands.  Note the `Minus` arm: it checks only
the *right* operand (with `check_number_operand`), then evaluates
`left - right`, whose `impl Sub` panics when `left` is not a number. -/
def binaryOpEval (operator : Token) (left right : Obj) : Outcome Obj :=
  match operator.typ with
  | .greater =>
    match checkNumberOperands operator left right with
    | .ok () =>
      (match left.gtO right with
       | .ok b => .ok (.bool b)
       | .err e => .err e
       | .panic m => .panic m
       | .timeout => .timeout)
    | .err e => .err e
    | .panic m => .panic m
    | .timeout => .timeout
  | .greaterEqual =>
    match checkNumberOperands operator left right with
    | .ok () =>
      (match left.geO right with
       | .ok b => .ok (.bool b)
       | .err e => .err e
       | .panic m => .panic m
       | .timeout => .timeout)
    | .err e => .err e
    | .panic m => .panic m
    | .timeout => .timeout
  | .less =>
    match checkNumberOperands operator left right with
    | .ok () =>
      (match left.ltO right with
       | .ok b => .ok (.bool b)
       | .err e => .err e
       | .panic m => .panic m
       | .timeout => .timeout)
    | .err e => .err e
    | .panic m => .panic m
    | .timeout => .timeout
  | .lessEqual =>
    match checkNumberOperands operator left right with
    | .ok () =>
      (match left.leO right with
       | .ok b => .ok (.bool b)
       | .err e => .err e
       | .panic m => .panic m
       | .timeout => .timeout)
    | .err e => .err e
    | .panic m => .panic m
    | .timeout => .timeout
  | .bangEqual => .ok (.bool (¬ left.beq right))
  | .equalEqual => .ok (.bool (left.beq right))
  | .minus =>
    match checkNumberOperand operator right with
    | .ok () => left.subO right
    | .err e => .err e
    | .panic m => .panic m
    | .timeout => .timeout
  | .plus =>
    if left.isNum ∧ right.isNum then left.addO right
    else if left.isStr ∧ right.isStr then left.addO right
    else .err (.runtimeError operator "Operands must be two numbers or two strings.")
  | .slash =>
    match checkNumberOperands operator left right with
    | .ok () => left.divO right
    | .err e => .err e
    | .panic m => .panic m
    | .timeout => .timeout
  | .star =>
    match checkNumberOperands operator left right with
    | .ok () => left.mulO right
    | .err e => .err e
    | .panic m => .panic m
    | .timeout => .timeout
  | _ => .panic "internal error: entered unreachable code"

/-- The `Literal` payload as a runtime value (`expr.value.clone()`). -/
def litToObj : Lit → Obj
  | .null => .null
  | .bool b => .bool b
  | .num n => .num n
  | .str s => .str s

/-- interpreter.rs `look_up_variable`: resolved depth through
`get_at` on the current environment, else the globals by name. -/
def lookUpVariable (name : Token) (exprId : Nat) : IM Obj := fun st =>
  match localsGet st.locals exprId with
  | some distance => (envGetAt st.store st.environment distance name.lexeme, st)
  | none => (envGet st.store st.globals name, st)

/-- interpreter.rs `visit_class_stmt`'s method-table construction
(panics on a non-`Function` entry). -/
def buildMethodTable (envRef : Nat) (methods : List Stmt)
    (acc : List (String × LoxFunction)) : Outcome (List (String × LoxFunction)) :=
  match methods with
  | [] => .ok acc
  | .function name params body :: rest =>
    buildMethodTable envRef rest
      (alistPut acc name.lexeme
        ⟨⟨name, params, body⟩, envRef, name.lexeme = "init"⟩)
  | _ :: _ => .panic "StmtClass.methods must contain StmtFunction only."

/-- lox_callable.rs `LoxFunction::call` after `execute_block` returns: the
`if let Err(LoxError::Return(v))` arm returns `this` (for initializers)
or the payload; everything else — the normal exit, but also any
*non-Return* `Err`, which the `if let` silently swallows — falls through
to the initializer/`Nil` tail. -/
def callFnFinish (f : LoxFunction) (r : Outcome Unit) : IM Obj := fun st =>
  match r with
  | .err (.ret returnValue) =>
    if f.isInitializer then (envGetAt st.store f.closure 0 "this", st)
    else (.ok returnValue, st)
  | .panic m => (.panic m, st)
  | .timeout => (.timeout, st)
  | _ =>
    if f.isInitializer then (envGetAt st.store f.closure 0 "this", st)
    else (.ok Obj.null, st)


mutual

/-- interpreter.rs `evaluate` (the `ExprVisitor` dispatch). -/
def evaluate (g : Nat) (expr : Expr) : IM Obj :=
  match g with
  | 0 => iTimeout
  | g + 1 =>
    match expr with
    | .literal _ value => pure (litToObj value)
    | .unary _ operator right => do
      let r ← evaluate g right
      match operator.typ with
      | .bang => pure r.notO
      | .minus => do
        iLift (checkNumberOperand operator r)
        iLift r.negO
      | _ => iPanic "internal error: entered unreachable code"
    | .binary _ left operator right => do
      let l ← evaluate g left
      let r ← evaluate g right
      iLift (binaryOpEval operator l r)
    | .grouping _ inner => evaluate g inner
    | .var_ i name => lookUpVariable name i
    | .assign i name value => do
      let v ← evaluate g value
      fun st =>
        match localsGet st.locals i with
        | some distance =>
          (match envAssignAt st.store st.environment distance name v with
           | .ok store => (.ok v, { st with store := store })
           | .err e => (.err e, st)
           | .panic m => (.panic m, st)
           | .timeout => (.timeout, st))
        | none =>
          (match envAssign st.store st.globals name v with
           | .ok store => (.ok v, { st with store := store })
           | .err e => (.err e, st)
           | .panic m => (.panic m, st)
           | .timeout => (.timeout, st))
    | .logical _ left operator right => do
      let l ← evaluate g left
      if operator.typ = .orKw then
        if l.isTruthy then pure l else evaluate g right
      else
        if ¬ l.isTruthy then pure l else evaluate g right
    | .call _ callee paren arguments => do
      let c ← evaluate g callee
      let args ← evalArgs g arguments []
      match c with
      | .callable f =>
        if args.length ≠ f.arity then
          iThrow (.runtimeError paren
            ("Expected " ++ toString f.arity ++ " arguments but got " ++
             toString args.length ++ "."))
        else callCallable g f args
      | _ => iThrow (.runtimeError paren "Can only call functions and classes.")
    | .get _ object name => do
      let o ← evaluate g object
      match o with
      | .inst r => instGet r name
      | _ => iThrow (.runtimeError name "Only instances have properties.")
    | .set _ object name value => do
      let o ← evaluate g object
      match o with
      | .inst r => do
        let v ← evaluate g value
        fun st => (.ok v, instSet r name v st)
      | _ => iThrow (.runtimeError name "Only instances have fields.")
    | .this i keyword => lookUpVariable keyword i
    | .superE i _keyword method => fun st =>
      match localsGet st.locals i with
      | none => (.panic "called Option::unwrap() on a None value", st)
      | some distance =>
        match envGetAt st.store st.environment distance "super" with
        | .ok superclass =>
          (match envGetAt st.store st.environment (distance - 1) "this" with
           | .ok object =>
             (match superclass with
              | .callable (.classK lc) =>
                (match lc.findMethod method.lexeme with
                 | some m =>
                   (match object with
                    | .inst r =>
                      let (store, f) := bindFunction st.store m r
                      (.ok (Obj.callable (.function f)), { st with store := store })
                    | _ => (.panic "This object must be LoxInstance", st))
                 | none =>
                   (.err (.runtimeError method
                     ("Undefined property \x27" ++ method.lexeme ++ "\x27.")), st))
              | _ => (.panic "\x27super\x27 must be LoxClass.", st))
           | .err e => (.err e, st)
           | .panic m => (.panic m, st)
           | .timeout => (.timeout, st))
        | .err e => (.err e, st)
        | .panic m => (.panic m, st)
        | .timeout => (.timeout, st)

/-- The left-to-right argument evaluation of `visit_call_expr`. -/
def evalArgs (g : Nat) (arguments : List Expr) (acc : List Obj) : IM (List Obj) :=
  match g with
  | 0 => iTimeout
  | g + 1 =>
    match arguments with
    | [] => pure acc
    | a :: rest => do
      let v ← evaluate g a
      evalArgs g rest (acc ++ [v])

/-- lox_callable.rs `CallableKind::call` dispatch.  The `clock` native's
host side effect is modelled as the constant 0 seconds. -/
def callCallable (g : Nat) (kind : CallableKind) (args : List Obj) : IM Obj :=
  match g with
  | 0 => iTimeout
  | g + 1 =>
    match kind with
    | .function f => callLoxFunction g f args
    | .native _ => pure (Obj.num (.fin 0))
    | .classK c => fun st =>
      let (store, instRef) := st.store.allocInst ⟨c, []⟩
      let st := { st with store := store }
      match c.findMethod "init" with
      | some initializer =>
        let (store, bound) := bindFunction st.store initializer instRef
        let st := { st with store := store }
        (match callLoxFunction g bound args st with
         | (.ok _, st) => (.ok (Obj.inst instRef), st)
         | (.err e, st) => (.err e, st)
         | (.panic m, st) => (.panic m, st)
         | (.timeout, st) => (.timeout, st))
      | none => (.ok (Obj.inst instRef), st)

/-- lox_callable.rs `LoxFunction::call`: bind the parameters in a fresh
environment over the closure and run the body, then post-process through
`callFnFinish`. -/
def callLoxFunction (g : Nat) (f : LoxFunction) (args : List Obj) : IM Obj :=
  match g with
  | 0 => iTimeout
  | g + 1 => fun st =>
    let (store, envRef) := st.store.allocEnv ⟨some f.closure, []⟩
    let store :=
      (f.declaration.params.zip args).foldl
        (fun store pa => envDefine store envRef pa.1.lexeme pa.2) store
    let st := { st with store := store }
    match executeBlock g f.declaration.body envRef st with
    | (r, st) => callFnFinish f r st

/-- interpreter.rs `execute` (the `StmtVisitor` dispatch). -/
def execute (g : Nat) (stmt : Stmt) : IM Unit :=
  match g with
  | 0 => iTimeout
  | g + 1 =>
    match stmt with
    | .expression e => do
      let _ ← evaluate g e
      pure ()
    | .print e => do
      let v ← evaluate g e
      fun st => (.ok (), { st with output := st.output ++ [renderObj st.store v] })
    | .varS name initializer => do
      let v ←
        (match initializer with
         | some e => evaluate g e
         | none => pure Obj.null)
      fun st =>
        (.ok (), { st with store := envDefine st.store st.environment name.lexeme v })
    | .block statements => fun st =>
      let (store, envRef) := st.store.allocEnv ⟨some st.environment, []⟩
      executeBlock g statements envRef { st with store := store }
    | .ifS condition thenBranch elseBranch => do
      let c ← evaluate g condition
      if c.isTruthy then execute g thenBranch
      else
        match elseBranch with
        | some e => execute g e
        | none => pure ()
    | .whileS condition body => whileLoop g condition body
    | .function name params body => fun st =>
      let f : LoxFunction := ⟨⟨name, params, body⟩, st.environment, false⟩
      let store :=
        envDefine st.store st.environment name.lexeme (Obj.callable (.function f))
      (.ok (), { st with store := store })
    | .returnS _ value => do
      let v ←
        (match value with
         | some e => evaluate g e
         | none => pure Obj.null)
      iThrow (.ret v)
    | .classDecl name superclassE methods => do
      let superclass ←
        (match superclassE with
         | some sce => do
           let v ← evaluate g sce
           match v with
           | .callable (.classK _) => pure v
           | _ =>
             -- interpreter.rs only raises "Superclass must be a class."
             -- when the superclass expression is a `Variable`.
             (match superclassE with
              | some (.var_ _ vname) =>
                iThrow (.runtimeError vname "Superclass must be a class.")
              | _ => pure v)
         | none => pure Obj.null : IM Obj)
      fun st =>
        let store0 := envDefine st.store st.environment name.lexeme Obj.null
        let st := { st with store := store0 }
        let st :=
          if superclassE.isSome then
            let (store, envRef) := st.store.allocEnv ⟨some st.environment, []⟩
            let store := envDefine store envRef "super" superclass
            { st with store := store, environment := envRef }
          else st
        match buildMethodTable st.environment methods [] with
        | .ok methodTable =>
          let klass : LoxClass :=
            LoxClass.mk name.lexeme
              (match superclass with
               | .callable (.classK lc) => some lc
               | _ => none)
              methodTable
          let popped :=
            if ¬ superclass.isNull then
              match (st.store.envs.getD st.environment ⟨none, []⟩).enclosing with
              | some temp => some { st with environment := temp }
              | none => none
            else some st
          (match popped with
           | none => (.panic "called Option::unwrap() on a None value", st)
           | some st =>
             match envAssign st.store st.environment name
                 (Obj.callable (.classK klass)) with
             | .ok store => (.ok (), { st with store := store })
             | .err e => (.err e, st)
             | .panic m => (.panic m, st)
             | .timeout => (.timeout, st))
        | .err e => (.err e, st)
        | .panic m => (.panic m, st)
        | .timeout => (.timeout, st)

/-- The condition/body loop of interpreter.rs `visit_while_stmt`. -/
def whileLoop (g : Nat) (condition : Expr) (body : Stmt) : IM Unit :=
  match g with
  | 0 => iTimeout
  | g + 1 => do
    let c ← evaluate g condition
    if c.isTruthy then do
      execute g body
      whileLoop g condition body
    else pure ()

/-- interpreter.rs `execute_block`: run the statements in the given
environment, restoring the previous environment on the normal exit and on
the `Err` exit (a panic aborts the program in Rust and propagates here). -/
def executeBlock (g : Nat) (statements : List Stmt) (environment : Nat) :
    IM Unit := fun st =>
  match g with
  | 0 => (.timeout, st)
  | g + 1 =>
    execBlockLoop g statements st.environment { st with environment := environment }

/-- The statement loop of `execute_block`; `previous` is the environment
saved on entry. -/
def execBlockLoop (g : Nat) (statements : List Stmt) (previous : Nat) :
    IM Unit := fun st =>
  match g with
  | 0 => (.timeout, st)
  | g + 1 =>
    match statements with
    | [] => (.ok (), { st with environment := previous })
    | stmt :: rest =>
      match execute g stmt st with
      | (.ok (), st) => execBlockLoop g rest previous st
      | (.err e, st) => (.err e, { st with environment := previous })
      | (.panic m, st) => (.panic m, st)
      | (.timeout, st) => (.timeout, st)

end

/-- interpreter.rs `interpret`: execute in order; the first
`RuntimeError` is reported to stderr and returned; execution stops
there. -/
def interpret (g : Nat) (statements : List Stmt) : IM Unit := fun st =>
  match g with
  | 0 => (.timeout, st)
  | g + 1 =>
    match statements with
    | [] => (.ok (), st)
    | stmt :: rest =>
      match execute g stmt st with
      | (.ok (), st) => interpret g rest st
      | (.err (.runtimeError t m), st) =>
        (.err (.runtimeError t m),
         { st with errout := st.errout ++ [loxRuntimeError t m] })
      | (.err e, st) => (.err e, st)
      | (.panic m, st) => (.panic m, st)
      | (.timeout, st) => (.timeout, st)

/-- interpreter.rs `Interpreter::new`: a global frame holding the `clock`
native; the current environment starts as the globals. -/
def interpreterInit : IState :=
  { store := { envs := [⟨none, [("clock", Obj.callable (.native ⟨0⟩))]⟩], insts := [] },
    globals := 0, environment := 0, locals := [], output := [], errout := [] }

/-- `Resolver::resolve` writes the side-table into the interpreter
(`Interpreter::resolve`); this installs a resolved table. -/
def installLocals (st : IState) (locals : List (Nat × Nat)) : IState :=
  { st with locals := locals }

end Interpreter

section Pipeline

/-- The token list of a source text (the scan half of the `run` entry
point of main.rs; empty on a scan error). -/
def tokensOf (src : String) : List Token :=
  match scanTokens src with
  | (.ok toks, _) => toks
  | _ => []

end Pipeline

section ClaimC4

def c4Store : Store :=
  { envs := [⟨none, [("a", Obj.num (.fin (mkRat 1 1)))]⟩], insts := [] }

def c4Name : Token := ⟨.identifier, "a", .null, 1⟩

/-- C4: the claim says `getAt(0, name)` returns the innermost binding and
`assignAt(0, name, value)` replaces that binding in the innermost
environment, with no traversal and no failure.  The read half holds, but
`assign_at` always calls `ancestor(distance)`, whose
`assert!(distance > 0)` fires at distance 0: on an innermost environment
that does bind `a`, `assign_at(0, "a", 2)` panics — for every store,
frame and value. -/
theorem c4_assign_at_zero_panics :
    envGetAt c4Store 0 0 "a" = .ok (Obj.num (.fin (mkRat 1 1))) ∧
    envAssignAt c4Store 0 0 c4Name (Obj.num (.fin (mkRat 2 1))) =
      .panic "assertion failed: distance > 0" ∧
    (∀ (s : Store) (r : Nat) (n : Token) (v : Obj),
      envAssignAt s r 0 n v = .panic "assertion failed: distance > 0") :=
  ⟨rfl, rfl, fun _ _ _ _ => rfl⟩

end ClaimC4

section ClaimC2

def minusTk : Token := ⟨.minus, "-", .null, 1⟩

def starTk : Token := ⟨.star, "*", .null, 1⟩

def slashTk : Token := ⟨.slash, "/", .null, 1⟩

/-- C2: the claim says `-`, `*` and `/` reject any non-Number operand
with the runtime error "Operands must be numbers.".  `*` and `/` do
(third and fourth conjuncts, for every right operand), and two Numbers
yield the numeric result (first conjunct); but the `Minus` arm of
`visit_binary_expr` checks only its right operand: a non-Number left with
a Number right reaches `impl Sub for Object` and panics (second
conjunct, also end-to-end through `evaluate` in the last conjunct), and a
non-Number right is rejected with the unary message "Operand must be a
number." instead (fifth conjunct). -/
theorem c2_minus_checks_only_right_operand :
    (∀ a b : LoxNum, binaryOpEval minusTk (.num a) (.num b) = .ok (.num (a.sub b))) ∧
    binaryOpEval minusTk (Obj.str "x") (Obj.num (.fin (mkRat 1 1))) =
      .panic "Failed to subtract Objects." ∧
    (∀ r : Obj, binaryOpEval starTk (Obj.str "x") r =
      .err (.runtimeError starTk "Operands must be numbers.")) ∧
    (∀ r : Obj, binaryOpEval slashTk (Obj.str "x") r =
      .err (.runtimeError slashTk "Operands must be numbers.")) ∧
    binaryOpEval minusTk (Obj.num (.fin (mkRat 1 1))) (Obj.bool true) =
      .err (.runtimeError minusTk "Operand must be a number.") ∧
    evaluate 9 (Expr.binary 0 (Expr.literal 1 (.str "x")) minusTk
        (Expr.literal 2 (.num (.fin (mkRat 1 1))))) interpreterInit =
      (.panic "Failed to subtract Objects.", interpreterInit) :=
  ⟨fun _ _ => rfl, rfl, fun _ => rfl, fun _ => rfl, rfl, rfl⟩

end ClaimC2

section ClaimC3

def clockName : Token := ⟨.identifier, "clock", .null, 1⟩

def eqTk : Token := ⟨.equalEqual, "==", .null, 1⟩

/-- C3: the claim says `==` is reflexive on all values, Callables and
Instances included.  NaN = NaN holds and `==` is symmetric and total,
but `impl PartialEq for Object` sends every Callable or Instance pair to
the `_ => false` arm, so even `clock == clock` — the very same native
value on both sides, looked up from the globals — evaluates to `false`
(last conjunct, through `evaluate` on a fresh interpreter), contradicting
reflexivity (and the `impl Eq for Object` marker's contract). -/
theorem c3_equality_not_reflexive_on_callables :
    Obj.beq (Obj.callable (.native ⟨0⟩)) (Obj.callable (.native ⟨0⟩)) = false ∧
    Obj.beq (Obj.inst 0) (Obj.inst 0) = false ∧
    Obj.beq (.num .nan) (.num .nan) = true ∧
    (∀ a b : Obj, Obj.beq a b = Obj.beq b a) ∧
    evaluate 9 (Expr.binary 0 (Expr.var_ 1 clockName) eqTk (Expr.var_ 2 clockName))
        interpreterInit = (.ok (Obj.bool false), interpreterInit) := by
  refine ⟨rfl, rfl, rfl, ?_, rfl⟩
  intro a b
  cases a <;> cases b <;> try rfl
  case bool.bool x y => simp [Obj.beq, eq_comm]
  case num.num m n =>
    cases m <;> cases n <;>
      simp [Obj.beq, LoxNum.isNan, LoxNum.ieeeEq, eq_comm]
  case str.str x y => simp [Obj.beq, eq_comm]

end ClaimC3

section ClaimC5

/-- C5: the claim says every token sequence of the spec grammar parses,
in particular a superclass clause, `this` and `super "." IDENT`.  The
provided parser accepts a plain class declaration (first conjunct) but
has no superclass clause in `class_declaration` and no `this`/`super`
arms in `primary`: all three spec-grammar sentences are rejected with a
parse error and the `ParseError` aggregate. -/
theorem c5_parser_rejects_class_grammar :
    parse (tokensOf "class C \x7b m() \x7b \x7d \x7d") =
      (.ok [Stmt.classDecl ⟨.identifier, "C", .null, 1⟩ none
        [Stmt.function ⟨.identifier, "m", .null, 1⟩ [] []]], []) ∧
    parse (tokensOf "class B < A \x7b \x7d") =
      (.err .parseError,
       ["[line 1] Error at \x27<\x27: Expect \x27\x7b\x27 before class body."]) ∧
    parse (tokensOf "this;") =
      (.err .parseError, ["[line 1] Error at \x27this\x27: Expect expression."]) ∧
    parse (tokensOf "super.m;") =
      (.err .parseError, ["[line 1] Error at \x27super\x27: Expect expression."]) :=
  ⟨rfl, rfl, rfl, rfl⟩

end ClaimC5

section ClaimC6

def c6ATok : Token := ⟨.identifier, "a", .null, 1⟩

def c6BTok : Token := ⟨.identifier, "b", .null, 1⟩

/-- C6: the claim says a `Get(object, name)` left-hand side of an
assignment becomes `Set(object, name, value)`.  A `Variable` left-hand
side does become an `Assign` (first conjunct), but the provided
`assignment` has no `Get` arm: `a.b = 1` records "Invalid assignment
target." without throwing and hands the `Get` back unchanged (second
conjunct shows the exact return value and parser state of `assignment`),
and the whole parse fails with the `ParseError` aggregate (third
conjunct) instead of producing a `Set`. -/
theorem c6_get_lhs_is_not_turned_into_set :
    parse (tokensOf "a = 1;") =
      (.ok [Stmt.expression (Expr.assign 2 c6ATok
        (Expr.literal 1 (.num (.fin (mkRat 1 1)))))], []) ∧
    pAssignment 30 ⟨tokensOf "a.b = 1;", 0, false, [], 0⟩ =
      (.ok (Expr.get 1 (Expr.var_ 0 c6ATok) c6BTok),
       ⟨tokensOf "a.b = 1;", 5, true,
        ["[line 1] Error at \x27=\x27: Invalid assignment target."], 3⟩) ∧
    parse (tokensOf "a.b = 1;") =
      (.err .parseError,
       ["[line 1] Error at \x27=\x27: Invalid assignment target."]) :=
  ⟨rfl, rfl, rfl⟩

end ClaimC6

section ClaimC7

def c7SuperTok : Token := ⟨.superKw, "super", .null, 1⟩

def c7MTok : Token := ⟨.identifier, "m", .null, 1⟩

def c7Prog : List Stmt :=
  [Stmt.classDecl ⟨.identifier, "A", .null, 1⟩ none
    [Stmt.function c7MTok []
      [Stmt.expression (Expr.superE 0 c7SuperTok c7MTok)]]]

def c7OutsideProg : List Stmt :=
  [Stmt.expression (Expr.superE 0 c7SuperTok c7MTok)]

/-- C7: the claim says `super` in a class with no superclass makes
`resolve` report the error and return the aggregate failure, like every
other static check.  The diagnostic is reported (first conjunct), but
this one branch of `visit_super_expr` never sets `had_error`, so
`resolve` returns success (second and third conjuncts) — while the
sibling check (`super` outside any class) does aggregate (fourth
conjunct). -/
theorem c7_super_in_plain_class_not_aggregated :
    (resolveProgram c7Prog).2.errors =
      ["[line 1] Error at \x27super\x27: Can\x27t use \x27super\x27 in a class with no superclass."] ∧
    (resolveProgram c7Prog).1 = .ok () ∧
    (resolveProgram c7Prog).2.hadError = false ∧
    (resolveProgram c7OutsideProg).1 = .err .resolveError :=
  ⟨rfl, rfl, rfl, rfl⟩

end ClaimC7

section ClaimC1

def c1Src : String := "\x7b var a = 1; print a; a = 2; \x7d"

def c1ATok : Token := ⟨.identifier, "a", .null, 1⟩

def c1Prog : List Stmt :=
  [Stmt.block
    [Stmt.varS c1ATok (some (Expr.literal 0 (Lit.num (.fin (mkRat 1 1))))),
     Stmt.print (Expr.var_ 1 c1ATok),
     Stmt.expression (Expr.assign 4 c1ATok (Expr.literal 3 (Lit.num (.fin (mkRat 2 1)))))]]

/-- C1: the claim says every reference with a recorded depth `d` is
evaluated by walking exactly `d` links to an environment that binds the
name, so `getAt`/`assignAt` never miss.  On `{ var a = 1; print a; a = 2; }`
the program parses, the Resolver succeeds and records depth 0 for both
the variable read (node 1) and the assignment (node 4); at runtime the
read at depth 0 does land on the block environment binding `a` (the
output line "1" is produced), but evaluating the depth-0 assignment
calls `assign_at(0, …)`, which panics on `assert!(distance > 0)` in
`ancestor` instead of writing the innermost binding. -/
theorem c1_resolved_depth0_assignment_panics :
    parse (tokensOf c1Src) = (.ok c1Prog, []) ∧
    (resolveProgram c1Prog).1 = .ok () ∧
    (resolveProgram c1Prog).2.locals = [(1, 0), (4, 0)] ∧
    (interpret 1000 c1Prog (installLocals interpreterInit [(1, 0), (4, 0)])).1 =
      .panic "assertion failed: distance > 0" ∧
    (interpret 1000 c1Prog (installLocals interpreterInit [(1, 0), (4, 0)])).2.output =
      ["1"] :=
  ⟨rfl, rfl, rfl, rfl, rfl⟩

end ClaimC1

section ClaimC8

/-- The quote-seeking loop of scanner.rs `string` on input with no closing
quote: it consumes everything to the end of input, bumping `line` once per
newline passed. -/
theorem scanStringGo_no_quote (gas : Nat) :
    ∀ s : ScanState, s.current ≤ s.source.length →
      s.source.length - s.current < gas →
      '"' ∉ s.source.drop s.current →
      scanStringGo gas s =
        { s with current := s.source.length,
                 line := s.line + ((s.source.drop s.current).count '\n') } := by
  induction gas with
  | zero => intro s h1 h2 h3; omega
  | succ gas ih =>
    intro s h1 h2 h3
    obtain ⟨src, toks, start, cur, line, errs⟩ := s
    simp only at h1 h2 h3 ⊢
    by_cases hend : cur < src.length
    · have hlt : (ScanState.isAtEnd ⟨src, toks, start, cur, line, errs⟩) = false := by
        simp [ScanState.isAtEnd]; omega
      have hpeek : ScanState.peek ⟨src, toks, start, cur, line, errs⟩ = src[cur] := by
        simp [ScanState.peek, ScanState.isAtEnd, List.getD_eq_getElem?_getD,
          List.getElem?_eq_getElem hend]
        omega
      have hdrop : src.drop cur = src[cur] :: src.drop (cur + 1) :=
        List.drop_eq_getElem_cons hend
      rw [hdrop] at h3
      have hne : src[cur] ≠ '"' := fun h => h3 (h ▸ List.mem_cons_self _ _)
      have hmem : '"' ∉ src.drop (cur + 1) := fun h => h3 (List.mem_cons_of_mem _ h)
      rw [scanStringGo, hpeek, hlt]
      simp only [hne, ne_eq, not_false_iff, Bool.not_false, and_true, if_true]
      rw [if_pos (by simp : True ∧ ¬false = true)]
      have step : ∀ l2 : Nat,
          scanStringGo gas (ScanState.advance ⟨src, toks, start, cur, l2, errs⟩).2 =
            { source := src, tokens := toks, start := start, current := src.length,
              line := l2 + List.count '\n' (List.drop (cur + 1) src), errors := errs } := by
        intro l2
        have h := ih ⟨src, toks, start, cur + 1, l2, errs⟩ (by simp; omega) (by simp; omega)
          (by simpa using hmem)
        simpa [ScanState.advance] using h
      by_cases hnl : src[cur] = '\n'
      · rw [if_pos hnl, step, hdrop]
        simp [List.count_cons, hnl]
        omega
      · rw [if_neg hnl, step, hdrop]
        simp [List.count_cons, hnl]
        rw [hdrop, List.count_cons]
        simp [hnl]
    · have heq : src.length ≤ cur := by omega
      have hdrop : src.drop cur = ([] : List Char) := List.drop_eq_nil_of_le heq
      have hAtEnd : (ScanState.isAtEnd ⟨src, toks, start, cur, line, errs⟩) = true := by
        simp [ScanState.isAtEnd]; omega
      rw [scanStringGo]
      rw [ScanState.peek, hAtEnd]
      simp [hdrop]
      omega

/-- C8 counterexample: on `"a\nb` — the opening quote on line 1 and an
unterminated string spanning one newline — the reported diagnostic names
line 2, the line reached at end of input, not the opening line the claim
requires; `scan_tokens` does return the scan-error aggregate. -/
theorem c8_unterminated_reports_last_line :
    scanTokens "\"a\nb" = (.err .scanError, ["[line 2] Error: Unterminated string."]) ∧
    loxErrorLine 1 "Unterminated string." = "[line 1] Error: Unterminated string." ∧
    "[line 2] Error: Unterminated string." ≠ "[line 1] Error: Unterminated string." :=
  ⟨rfl, rfl, by decide⟩

/-- C8 as amended: whenever scanner.rs `string` finds no closing quote in
the rest of the input, it reports "Unterminated string." with the line
counter as it stands at end of input — the line of the opening quote
plus the number of newlines inside the unterminated literal — and
signals the scan error that `scan_tokens` aggregates. -/
theorem c8_unterminated_line_is_final_line (s : ScanState)
    (h1 : s.current ≤ s.source.length)
    (h2 : '"' ∉ s.source.drop s.current) :
    scanString s =
      ({ s with current := s.source.length,
                line := s.line + ((s.source.drop s.current).count '\n'),
                errors := s.errors ++
                  [loxErrorLine (s.line + ((s.source.drop s.current).count '\n'))
                    "Unterminated string."] }, true) := by
  unfold scanString
  rw [scanStringGo_no_quote (s.source.length + 1) s h1 (by omega) h2]
  simp [ScanState.isAtEnd]

/-- The scanner state just after `scan_token` consumed the opening quote
of `"a\nb`. -/
def c8S0 : ScanState :=
  { source := "\"a\nb".data, tokens := [], start := 0, current := 1, line := 1,
    errors := [] }

theorem c8_unterminated_line_witness :
    scanString c8S0 =
      ({ c8S0 with current := 4, line := 2,
                   errors := [loxErrorLine 2 "Unterminated string."] }, true) := by
  have h := c8_unterminated_line_is_final_line c8S0 (by decide) (by decide)
  exact h

end ClaimC8

section ClaimC9

/-- C9: `LoxFunction::call` is parameter binding plus `execute_block`
plus the post-processing `callFnFinish` (first conjunct, definitional);
and whenever the flag `isInitializer` is set and the closure's innermost
frame binds `this`, that post-processing returns the `this` binding at
depth 0 of the closure — both on the normal exit and on a `Return`
signal, whose payload is discarded (second conjunct). -/
theorem c9_initializer_call_returns_this :
    (∀ (g : Nat) (f : LoxFunction) (args : List Obj) (st : IState),
       callLoxFunction (g + 1) f args st =
         (let alloc := st.store.allocEnv ⟨some f.closure, []⟩
          let store := (f.declaration.params.zip args).foldl
            (fun store pa => envDefine store alloc.2 pa.1.lexeme pa.2) alloc.1
          (fun (p : Outcome Unit × IState) => callFnFinish f p.1 p.2)
            (executeBlock g f.declaration.body alloc.2 { st with store := store }))) ∧
    (∀ (f : LoxFunction) (st : IState) (r : Outcome Unit) (v : Obj),
       f.isInitializer = true →
       envGetAt st.store f.closure 0 "this" = .ok v →
       (r = .ok () ∨ ∃ p, r = .err (.ret p)) →
       callFnFinish f r st = (.ok v, st)) := by
  constructor
  · intro g f args st
    rfl
  · intro f st r v hinit hthis hr
    rcases hr with rfl | ⟨p, rfl⟩ <;>
      simp [callFnFinish, hinit, hthis]

/-- A one-frame closure binding `this`, as `LoxFunction::bind` builds. -/
def c9St : IState :=
  { store := { envs := [⟨none, [("this", Obj.str "the instance")]⟩], insts := [] },
    globals := 0, environment := 0, locals := [], output := [], errout := [] }

def c9F : LoxFunction := ⟨⟨⟨.identifier, "init", .null, 1⟩, [], []⟩, 0, true⟩

theorem c9_initializer_call_witness :
    callFnFinish c9F (.err (.ret (Obj.num (.fin (mkRat 7 1))))) c9St =
      (.ok (Obj.str "the instance"), c9St) ∧
    callFnFinish c9F (.ok ()) c9St = (.ok (Obj.str "the instance"), c9St) :=
  ⟨c9_initializer_call_returns_this.2 c9F c9St _ _ rfl rfl (Or.inr ⟨_, rfl⟩),
   c9_initializer_call_returns_this.2 c9F c9St _ _ rfl rfl (Or.inl rfl)⟩

end ClaimC9

section ClaimC10

/-- The statement loop of interpreter.rs `execute_block` restores the
saved environment on both return paths (`Ok` and `Err`); a panic aborts
and a fuel timeout is no program behaviour. -/
theorem execBlockLoop_restores (g : Nat) :
    ∀ (stmts : List Stmt) (prev : Nat) (st : IState),
      (execBlockLoop g stmts prev st).1.isOk ∨ (execBlockLoop g stmts prev st).1.isErr →
      (execBlockLoop g stmts prev st).2.environment = prev := by
  induction g with
  | zero =>
    intro stmts prev st h
    simp [execBlockLoop, Outcome.isOk, Outcome.isErr] at h
  | succ g ih =>
    intro stmts prev st h
    match stmts with
    | [] => simp [execBlockLoop]
    | stmt :: rest =>
      rcases hx : execute g stmt st with ⟨o, st2⟩
      cases o with
      | ok a =>
        rw [execBlockLoop] at h ⊢
        simp only [hx] at h ⊢
        exact ih rest prev st2 h
      | err e =>
        rw [execBlockLoop] at h ⊢
        simp only [hx] at h ⊢
      | panic m =>
        rw [execBlockLoop] at h ⊢
        simp only [hx] at h ⊢
        simp [Outcome.isOk, Outcome.isErr] at h
      | timeout =>
        rw [execBlockLoop] at h ⊢
        simp only [hx] at h ⊢
        simp [Outcome.isOk, Outcome.isErr] at h

/-- C10: when `interpret` returns a runtime error, the state reached by
the failing statement is returned as-is except for the reported stderr
line — every earlier definition, assignment and field write persists
(second conjunct) — and the remaining statements never run; a statement
that succeeds hands its final state to the rest of the program unchanged
(third conjunct); and `execute_block` restores the previous environment
on every non-aborting exit path, error included (first conjunct). -/
theorem c10_first_error_persists_effects :
    (∀ (g : Nat) (stmts : List Stmt) (env : Nat) (st : IState),
       (executeBlock g stmts env st).1.isOk ∨ (executeBlock g stmts env st).1.isErr →
       (executeBlock g stmts env st).2.environment = st.environment) ∧
    (∀ (g : Nat) (s1 : Stmt) (rest : List Stmt) (st st' : IState)
       (t : Token) (m : String),
       execute g s1 st = (.err (.runtimeError t m), st') →
       interpret (g + 1) (s1 :: rest) st =
         (.err (.runtimeError t m),
          { st' with errout := st'.errout ++ [loxRuntimeError t m] })) ∧
    (∀ (g : Nat) (s1 : Stmt) (rest : List Stmt) (st st' : IState),
       execute g s1 st = (.ok (), st') →
       interpret (g + 1) (s1 :: rest) st = interpret g rest st') := by
  refine ⟨?_, ?_, ?_⟩
  · intro g stmts env st h
    cases g with
    | zero => simp [executeBlock, Outcome.isOk, Outcome.isErr] at h
    | succ g =>
      rw [executeBlock] at h ⊢
      exact execBlockLoop_restores g stmts st.environment _ h
  · intro g s1 rest st st' t m h
    rw [interpret]
    rw [h]
  · intro g s1 rest st st' h
    rw [interpret]
    rw [h]

def c10PlusTk : Token := ⟨.plus, "+", .null, 1⟩

def c10Bad : Stmt :=
  Stmt.expression (Expr.binary 0 (Expr.literal 1 (.num (.fin (mkRat 1 1))))
    c10PlusTk (Expr.literal 2 (.bool true)))

def c10Ok : Stmt :=
  Stmt.varS ⟨.identifier, "v", .null, 1⟩
    (some (Expr.literal 1 (.num (.fin (mkRat 5 1)))))

theorem c10_first_error_witness :
    (executeBlock 5 [] 3 interpreterInit).2.environment = 0 ∧
    interpret 10 [c10Bad, c10Ok] interpreterInit =
      (.err (.runtimeError c10PlusTk "Operands must be two numbers or two strings."),
       { interpreterInit with
         errout := interpreterInit.errout ++
           [loxRuntimeError c10PlusTk "Operands must be two numbers or two strings."] }) ∧
    interpret 10 [c10Ok] interpreterInit =
      interpret 9 []
        ⟨envDefine interpreterInit.store 0 "v" (Obj.num (.fin (mkRat 5 1))),
         0, 0, [], [], []⟩ :=
  ⟨c10_first_error_persists_effects.1 5 [] 3 interpreterInit (Or.inl rfl),
   c10_first_error_persists_effects.2.1 9 c10Bad [c10Ok] interpreterInit
     interpreterInit c10PlusTk "Operands must be two numbers or two strings." rfl,
   c10_first_error_persists_effects.2.2 9 c10Ok [] interpreterInit _ rfl⟩

end ClaimC10
